import Mathlib

set_option maxRecDepth 4000

/-!
# Verification of the Worker Coordinator (`worker_coordinator.py`)

A shallow embedding of the filesystem-based multi-worker coordination layer.
The shared directory tree (heartbeat files, issue-claim files, file-lock files,
the init lock) is modelled as association lists keyed by file name; a file that
exists but fails to parse as JSON is modelled as an entry carrying `none`.
Wall-clock time is an explicit `Int` parameter (`time.time()` is sampled once
per call). Every filesystem operation in the source (read, exclusive create,
overwrite, unlink) is modelled directly; `os.open(..., O_CREAT | O_EXCL)` is
the success-iff-absent exclusive create.
-/

namespace Coordinator

/-- Configuration constant from the source: heartbeat refresh interval. -/
def HEARTBEAT_INTERVAL_SECONDS : Int := 30

/-- Configuration constant from the source: worker considered dead after this. -/
def HEARTBEAT_TIMEOUT_SECONDS : Int := 90

/-- Configuration constant from the source: claims from dead workers expire. -/
def CLAIM_STALE_TIMEOUT_SECONDS : Int := 120

/-- Configuration constant from the source: initialization lock timeout. -/
def INIT_LOCK_TIMEOUT_SECONDS : Int := 300

/-! ## MD5 (the `hashlib.md5(...).hexdigest()` primitive used by `_sanitize_path`)

Machine integers are `Nat` with explicit reduction modulo `2 ^ 32`. -/

/-- Two to the thirty-second power, the 32-bit word modulus. -/
def M32 : Nat := 4294967296

/-- 32-bit left rotation of a word already reduced below `M32`. -/
def rotl32 (x s : Nat) : Nat := (x * 2 ^ s + x / 2 ^ (32 - s)) % M32

/-- The 64 MD5 sine-derived round constants (RFC 1321 table T). -/
def Kmd5 : List Nat :=
  [0xd76aa478, 0xe8c7b756, 0x242070db, 0xc1bdceee,
   0xf57c0faf, 0x4787c62a, 0xa8304613, 0xfd469501,
   0x698098d8, 0x8b44f7af, 0xffff5bb1, 0x895cd7be,
   0x6b901122, 0xfd987193, 0xa679438e, 0x49b40821,
   0xf61e2562, 0xc040b340, 0x265e5a51, 0xe9b6c7aa,
   0xd62f105d, 0x02441453, 0xd8a1e681, 0xe7d3fbc8,
   0x21e1cde6, 0xc33707d6, 0xf4d50d87, 0x455a14ed,
   0xa9e3e905, 0xfcefa3f8, 0x676f02d9, 0x8d2a4c8a,
   0xfffa3942, 0x8771f681, 0x6d9d6122, 0xfde5380c,
   0xa4beea44, 0x4bdecfa9, 0xf6bb4b60, 0xbebfbc70,
   0x289b7ec6, 0xeaa127fa, 0xd4ef3085, 0x04881d05,
   0xd9d4d039, 0xe6db99e5, 0x1fa27cf8, 0xc4ac5665,
   0xf4292244, 0x432aff97, 0xab9423a7, 0xfc93a039,
   0x655b59c3, 0x8f0ccc92, 0xffeff47d, 0x85845dd1,
   0x6fa87e4f, 0xfe2ce6e0, 0xa3014314, 0x4e0811a1,
   0xf7537e82, 0xbd3af235, 0x2ad7d2bb, 0xeb86d391]

/-- The 64 MD5 per-round left-rotation amounts. -/
def Smd5 : List Nat :=
  [7, 12, 17, 22, 7, 12, 17, 22, 7, 12, 17, 22, 7, 12, 17, 22,
   5, 9, 14, 20, 5, 9, 14, 20, 5, 9, 14, 20, 5, 9, 14, 20,
   4, 11, 16, 23, 4, 11, 16, 23, 4, 11, 16, 23, 4, 11, 16, 23,
   6, 10, 15, 21, 6, 10, 15, 21, 6, 10, 15, 21, 6, 10, 15, 21]

/-- MD5 round function F/G/H/I selected by round index. -/
def md5F (i b c d : Nat) : Nat :=
  if i < 16 then Nat.lor (Nat.land b c) (Nat.land (Nat.xor b 0xffffffff) d)
  else if i < 32 then Nat.lor (Nat.land d b) (Nat.land (Nat.xor d 0xffffffff) c)
  else if i < 48 then Nat.xor (Nat.xor b c) d
  else Nat.xor c (Nat.lor b (Nat.xor d 0xffffffff))

/-- MD5 message-word index schedule. -/
def md5g (i : Nat) : Nat :=
  if i < 16 then i
  else if i < 32 then (5 * i + 1) % 16
  else if i < 48 then (3 * i + 5) % 16
  else (7 * i) % 16

/-- Little-endian 32-bit word number `j` of a 64-byte chunk. -/
def leWord (chunk : List Nat) (j : Nat) : Nat :=
  chunk.getD (4 * j) 0 + 256 * chunk.getD (4 * j + 1) 0 +
    65536 * chunk.getD (4 * j + 2) 0 + 16777216 * chunk.getD (4 * j + 3) 0

/-- One MD5 round on the running `(a, b, c, d)` state. -/
def md5Round (chunk : List Nat) (st : Nat × Nat × Nat × Nat) (i : Nat) :
    Nat × Nat × Nat × Nat :=
  let f := (md5F i st.2.1 st.2.2.1 st.2.2.2 + st.1 + Kmd5.getD i 0 +
    leWord chunk (md5g i)) % M32
  (st.2.2.2, (st.2.1 + rotl32 f (Smd5.getD i 0)) % M32, st.2.1, st.2.2.1)

/-- Process one 64-byte chunk into the MD5 accumulator. -/
def md5Chunk (h : Nat × Nat × Nat × Nat) (chunk : List Nat) :
    Nat × Nat × Nat × Nat :=
  let r := (List.range 64).foldl (md5Round chunk) h
  ((h.1 + r.1) % M32, (h.2.1 + r.2.1) % M32,
   (h.2.2.1 + r.2.2.1) % M32, (h.2.2.2 + r.2.2.2) % M32)

/-- MD5 padding: a 0x80 byte, zeros to 56 mod 64, then the bit length
little-endian in 8 bytes. -/
def md5Pad (msg : List Nat) : List Nat :=
  let ml := (8 * msg.length) % 2 ^ 64
  let zeros := (119 - msg.length % 64) % 64
  msg ++ [0x80] ++ List.replicate zeros 0 ++
    [ml % 256, ml / 256 % 256, ml / 256 ^ 2 % 256, ml / 256 ^ 3 % 256,
     ml / 256 ^ 4 % 256, ml / 256 ^ 5 % 256, ml / 256 ^ 6 % 256, ml / 256 ^ 7 % 256]

/-- Split a padded message into its 64-byte chunks. -/
def md5Chunks (l : List Nat) : List (List Nat) :=
  (List.range (l.length / 64)).map (fun i => (l.drop (64 * i)).take 64)

/-- The four bytes of a 32-bit word, little-endian. -/
def wordLEBytes (w : Nat) : List Nat :=
  [w % 256, w / 256 % 256, w / 65536 % 256, w / 16777216 % 256]

/-- Lowercase hexadecimal digit for a value below 16. -/
def hexDigit (n : Nat) : Char :=
  if n < 10 then Char.ofNat (48 + n) else Char.ofNat (87 + n)

/-- Two lowercase hex characters of one byte. -/
def byteHex (b : Nat) : List Char := [hexDigit (b / 16), hexDigit (b % 16)]

/-- The 16 digest bytes of the MD5 of a byte sequence. -/
def md5Bytes (msg : List Nat) : List Nat :=
  let r := (md5Chunks (md5Pad msg)).foldl md5Chunk
    (0x67452301, 0xefcdab89, 0x98badcfe, 0x10325476)
  wordLEBytes r.1 ++ wordLEBytes r.2.1 ++ wordLEBytes r.2.2.1 ++ wordLEBytes r.2.2.2

/-- The 32-character lowercase hexdigest of the MD5 of a byte sequence. -/
def md5hex (msg : List Nat) : String :=
  String.mk ((md5Bytes msg).map byteHex).flatten

/-- UTF-8 encoding of one character as a byte list (Python `str.encode()`). -/
def utf8EncodeCharNat (c : Char) : List Nat :=
  let n := c.toNat
  if n < 0x80 then [n]
  else if n < 0x800 then [0xC0 + n / 64, 0x80 + n % 64]
  else if n < 0x10000 then [0xE0 + n / 4096, 0x80 + n / 64 % 64, 0x80 + n % 64]
  else [0xF0 + n / 262144, 0x80 + n / 4096 % 64, 0x80 + n / 64 % 64, 0x80 + n % 64]

/-- UTF-8 byte sequence of a string. -/
def utf8Bytes (s : String) : List Nat := (s.data.map utf8EncodeCharNat).flatten

/-- First 8 characters of the MD5 hexdigest of a string, as in
`hashlib.md5(file_path.encode()).hexdigest()[:8]`. -/
def md5hex8 (p : String) : String := String.mk ((md5hex (utf8Bytes p)).data.take 8)

/-! ## Path and issue-id sanitization -/

/-- Character-level image of the chained single-character replacements in
`_sanitize_path`: `replace("/", "__").replace("\\", "__").replace(":", "_")`.
Because every pattern is a single character and no replacement string contains
a later pattern character, the chain equals this one-pass character map. -/
def sanitizeChar (c : Char) : List Char :=
  if c = '/' then ['_', '_']
  else if c = '\\' then ['_', '_']
  else if c = ':' then ['_']
  else [c]

/-- The `safe` string of `_sanitize_path` before the length check. -/
def presanitize (p : String) : String := String.mk (p.data.map sanitizeChar).flatten

/-- Embedding of `WorkerCoordinator._sanitize_path`: separator replacement,
then truncation with an 8-hex-character MD5 suffix when the result exceeds
200 characters (Python slices by character, hence `List.take` on `data`). -/
def sanitizePath (p : String) : String :=
  let safe := presanitize p
  if safe.length > 200 then
    String.mk (safe.data.take 190 ++ '_' :: (md5hex8 p).data)
  else safe

/-- Character-level image of `issue_id.replace("/", "_").replace("\\", "_")`,
a single-character-to-single-character replacement chain, used to build claim
and decomposition-request file names. -/
def sanitizeIssueChar (c : Char) : Char :=
  if c = '/' then '_' else if c = '\\' then '_' else c

/-- Issue-id sanitization used by claim-file naming. -/
def sanitizeIssueId (issue_id : String) : String :=
  String.mk (issue_id.data.map sanitizeIssueChar)

/-! ## Data model: the JSON records persisted in the shared directory -/

/-- Contents of a heartbeat file `worker-<id>.lock`. -/
structure WorkerRec where
  worker_id : String
  pid : Nat
  started : Int
  heartbeat : Int
  claimed_issues : List String
  claimed_files : List String
deriving DecidableEq, Repr

/-- Contents of an issue-claim file `claims/<safe-id>.claim`. -/
structure ClaimRec where
  worker_id : String
  issue_id : String
  claimed_at : Int
  pid : Nat
  files : List String
deriving DecidableEq, Repr

/-- Contents of a file-lock file `files/<safe-path>.lock`. -/
structure LockRec where
  worker_id : String
  file_path : String
  issue_id : String
  locked_at : Int
  pid : Nat
deriving DecidableEq, Repr

/-- Contents of the singleton `init.lock` role file. -/
structure InitLockRec where
  worker_id : String
  locked_at : Int
  pid : Nat
deriving DecidableEq, Repr

/-- The shared directory tree. Each store is an association list keyed by the
file name (worker id for heartbeats, sanitized issue id for claims, sanitized
path for file locks); an entry whose value is `none` is a file that exists but
fails to parse as JSON. An absent key is an absent file. -/
structure FS where
  workers : List (String × Option WorkerRec)
  claims : List (String × Option ClaimRec)
  locks : List (String × Option LockRec)
  initLock : Option (Option InitLockRec)
deriving DecidableEq, Repr

/-- The in-process state of one `WorkerCoordinator` object. -/
structure Coord where
  worker_id : String
  pid : Nat
  start_time : Int
  claimed_issues : List String
  claimed_files : List String
  registered : Bool
deriving DecidableEq, Repr

/-- Read the file named `k`: `none` is a missing file, `some none` a file
that exists but does not parse, `some (some r)` a parsed record. -/
def lookupEntry {α : Type} (l : List (String × α)) (k : String) : Option α :=
  (l.find? (fun e => e.1 == k)).map (fun e => e.2)

/-- Unlink the file named `k`. -/
def removeEntry {α : Type} (l : List (String × α)) (k : String) :
    List (String × α) :=
  l.filter (fun e => !(e.1 == k))

/-- Write (create or overwrite) the file named `k` with contents `v`. -/
def setEntry {α : Type} (l : List (String × α)) (k : String) (v : α) :
    List (String × α) :=
  removeEntry l k ++ [(k, v)]

/-! ## Coordinator operations

Each embedded method takes the shared state `fs : FS` and the sampled clock
`now : Int` explicitly and returns the updated shared and in-process state.
Methods that raise `RuntimeError` when the worker is unregistered return
`Option`, with `none` standing for the raised exception. -/

/-- Embedding of `get_active_workers`: parse every heartbeat file and keep
those with heartbeat age strictly below the 90-second timeout; unparseable
files are skipped. The function mutates nothing, which the returned `FS`
records. -/
def getActiveWorkers (fs : FS) (now : Int) : List WorkerRec × FS :=
  (fs.workers.filterMap (fun e =>
    match e.2 with
    | some r => if now - r.heartbeat < HEARTBEAT_TIMEOUT_SECONDS then some r else none
    | none => none), fs)

/-- The set `{w["worker_id"] for w in self.get_active_workers()}`. -/
def activeIds (fs : FS) (now : Int) : List String :=
  (getActiveWorkers fs now).1.map (fun r => r.worker_id)

/-- The heartbeat record `_update_heartbeat` writes. -/
def heartbeatData (c : Coord) (now : Int) : WorkerRec :=
  ⟨c.worker_id, c.pid, c.start_time, now, c.claimed_issues, c.claimed_files⟩

/-- Embedding of `_update_heartbeat`: atomically overwrite this worker's
heartbeat file (write-temp-then-rename). -/
def updateHeartbeat (c : Coord) (fs : FS) (now : Int) : FS :=
  { fs with workers := setEntry fs.workers c.worker_id (some (heartbeatData c now)) }

/-- Embedding of `_cleanup_stale_workers`: unlink every heartbeat file other
than our own that is unparseable or whose heartbeat age exceeds the timeout. -/
def cleanupStaleWorkers (c : Coord) (fs : FS) (now : Int) : FS :=
  { fs with workers := fs.workers.filter (fun e =>
      if e.1 == c.worker_id then true
      else match e.2 with
        | none => false
        | some r => ¬ now - r.heartbeat > HEARTBEAT_TIMEOUT_SECONDS) }

/-- Embedding of `_cleanup_stale_init_lock`: unlink the init lock when it is
unparseable, older than its 5-minute timeout, or owned by a dead worker. -/
def cleanupStaleInitLock (fs : FS) (now : Int) : FS :=
  match fs.initLock with
  | none => fs
  | some none => { fs with initLock := none }
  | some (some d) =>
    if now - d.locked_at > INIT_LOCK_TIMEOUT_SECONDS then { fs with initLock := none }
    else if d.worker_id ∈ activeIds fs now then fs
    else { fs with initLock := none }

/-- Embedding of `_cleanup_stale_claims`: unlink every claim file that is
unparseable, owned by a dead worker, or older than the 120-second timeout. -/
def cleanupStaleClaims (fs : FS) (now : Int) : FS :=
  let act := activeIds fs now
  { fs with claims := fs.claims.filter (fun e =>
      match e.2 with
      | none => false
      | some d => ¬ (d.worker_id ∉ act ∨ now - d.claimed_at > CLAIM_STALE_TIMEOUT_SECONDS)) }

/-- Embedding of `_cleanup_stale_file_locks`: unlink every file lock that is
unparseable, owned by a dead worker, or older than the 120-second timeout. -/
def cleanupStaleFileLocks (fs : FS) (now : Int) : FS :=
  let act := activeIds fs now
  { fs with locks := fs.locks.filter (fun e =>
      match e.2 with
      | none => false
      | some d => ¬ (d.worker_id ∉ act ∨ now - d.locked_at > CLAIM_STALE_TIMEOUT_SECONDS)) }

/-- Embedding of `register`: write our heartbeat, mark registered, then sweep
stale workers, the init lock, stale claims, and stale file locks, in the
source's order. Directory creation and the multi-worker notice are pure
filesystem/metadata and console effects with no bearing on the stores. -/
def register (c : Coord) (fs : FS) (now : Int) : Coord × FS :=
  let fs1 := updateHeartbeat c fs now
  let c1 := { c with registered := true }
  let fs2 := cleanupStaleWorkers c1 fs1 now
  let fs3 := cleanupStaleInitLock fs2 now
  let fs4 := cleanupStaleClaims fs3 now
  let fs5 := cleanupStaleFileLocks fs4 now
  (c1, fs5)

/-- The `os.open(str(claim_file), O_CREAT | O_EXCL | O_WRONLY)` acquisition
step of `try_claim_issue`: fails atomically when the file already exists,
otherwise creates the claim record, appends to the in-memory claim set and
refreshes the heartbeat. -/
def acquireIssueClaim (c : Coord) (fs : FS) (now : Int) (issue_id safe : String) :
    Bool × Coord × FS :=
  if (lookupEntry fs.claims safe).isSome then (false, c, fs)
  else
    let c1 := { c with claimed_issues := c.claimed_issues ++ [issue_id] }
    let v : Option ClaimRec := some ⟨c.worker_id, issue_id, now, c.pid, []⟩
    let fs1 := { fs with claims := setEntry fs.claims safe v }
    (true, c1, updateHeartbeat c1 fs1 now)

/-- Embedding of `try_claim_issue`: idempotent success when the issue is in
our claim set; adoption when the claim file records our id; failure when a
live worker owns it; stale or corrupt claim files are unlinked before the
exclusive-create acquisition. `none` models the `RuntimeError` raised when
the worker is not registered. -/
def tryClaimIssue (c : Coord) (fs : FS) (now : Int) (issue_id : String) :
    Option (Bool × Coord × FS) :=
  if ¬ c.registered then none
  else
    let safe := sanitizeIssueId issue_id
    if issue_id ∈ c.claimed_issues then some (true, c, fs)
    else
      match lookupEntry fs.claims safe with
      | some (some data) =>
        if data.worker_id == c.worker_id then
          some (true, { c with claimed_issues := c.claimed_issues ++ [issue_id] }, fs)
        else if data.worker_id ∈ activeIds fs now then some (false, c, fs)
        else some (acquireIssueClaim c
          { fs with claims := removeEntry fs.claims safe } now issue_id safe)
      | some none =>
        some (acquireIssueClaim c
          { fs with claims := removeEntry fs.claims safe } now issue_id safe)
      | none => some (acquireIssueClaim c fs now issue_id safe)

/-- The exclusive-create acquisition step of `_try_claim_file`. -/
def acquireFileLock (c : Coord) (fs : FS) (now : Int) (file_path issue_id safe : String) :
    Bool × Coord × FS :=
  if (lookupEntry fs.locks safe).isSome then (false, c, fs)
  else
    let c1 := { c with claimed_files := c.claimed_files ++ [file_path] }
    let v : Option LockRec := some ⟨c.worker_id, file_path, issue_id, now, c.pid⟩
    (true, c1, { fs with locks := setEntry fs.locks safe v })

/-- Embedding of `_try_claim_file`: same shape as `try_claim_issue` but on the
file-lock store, and without a heartbeat refresh. -/
def tryClaimFile (c : Coord) (fs : FS) (now : Int) (file_path issue_id : String) :
    Bool × Coord × FS :=
  let safe := sanitizePath file_path
  if file_path ∈ c.claimed_files then (true, c, fs)
  else
    match lookupEntry fs.locks safe with
    | some (some data) =>
      if data.worker_id == c.worker_id then
        (true, { c with claimed_files := c.claimed_files ++ [file_path] }, fs)
      else if data.worker_id ∈ activeIds fs now then (false, c, fs)
      else acquireFileLock c
        { fs with locks := removeEntry fs.locks safe } now file_path issue_id safe
    | some none => acquireFileLock c
        { fs with locks := removeEntry fs.locks safe } now file_path issue_id safe
    | none => acquireFileLock c fs now file_path issue_id safe

/-- Embedding of `_release_file`: unlink the lock file after verifying
ownership, and drop the first occurrence of the path from the in-memory
claimed-file list (`list.remove`). -/
def releaseFile (c : Coord) (fs : FS) (file_path : String) : Coord × FS :=
  let safe := sanitizePath file_path
  let fs1 :=
    match lookupEntry fs.locks safe with
    | some (some data) =>
      if data.worker_id == c.worker_id then
        { fs with locks := removeEntry fs.locks safe }
      else fs
    | _ => fs
  ({ c with claimed_files := c.claimed_files.erase file_path }, fs1)

/-- Embedding of `_update_issue_claim_files`: overwrite the `files` field of
an existing, parseable claim file. -/
def updateIssueClaimFiles (fs : FS) (issue_id : String) (files : List String) : FS :=
  let safe := sanitizeIssueId issue_id
  match lookupEntry fs.claims safe with
  | some (some data) =>
    { fs with claims := setEntry fs.claims safe (some { data with files := files }) }
  | _ => fs

/-- One step of the `for file_path in data.get("files", [])` /
rollback loops: release one file lock from a running (coordinator, fs)
accumulator. -/
def releaseFileStep (a : Coord × FS) (fp : String) : Coord × FS :=
  releaseFile a.1 a.2 fp

/-- Embedding of `release_claim`: verify ownership by re-reading the claim
file; when owned by us, release every file lock in its `files` list and
unlink it. In all cases drop the issue from the in-memory claim set and
refresh the heartbeat. -/
def releaseClaim (c : Coord) (fs : FS) (now : Int) (issue_id : String) : Coord × FS :=
  let safe := sanitizeIssueId issue_id
  let p :=
    match lookupEntry fs.claims safe with
    | some (some data) =>
      if data.worker_id == c.worker_id then
        let q := data.files.foldl releaseFileStep (c, fs)
        (q.1, { q.2 with claims := removeEntry q.2.claims safe })
      else (c, fs)
    | _ => (c, fs)
  let c1 := { p.1 with claimed_issues := p.1.claimed_issues.erase issue_id }
  (c1, updateHeartbeat c1 p.2 now)

/-- One step of the `for file_path in files_to_check` loop of
`check_file_conflicts`: append the path when its lock file parses to a
different owner that is in the active set. -/
def conflictStep (c : Coord) (fs : FS) (act : List String) (confs : List String)
    (fp : String) : List String :=
  match lookupEntry fs.locks (sanitizePath fp) with
  | some (some data) =>
    if data.worker_id ≠ c.worker_id ∧ data.worker_id ∈ act then confs ++ [fp]
    else confs
  | _ => confs

/-- Embedding of `check_file_conflicts` (the method): collect every path whose
lock file parses to a different, live owner. The method performs no unlink;
the returned `FS` records that it mutates nothing. -/
def checkFileConflicts (c : Coord) (fs : FS) (now : Int) (files : List String) :
    List String × FS :=
  (files.foldl (conflictStep c fs (activeIds fs now)) [], fs)

/-- Embedding of `is_issue_claimed`: read the claim file and report its owner
when the owner has a fresh heartbeat; missing, unparseable, or dead-owner
claims report `none`. -/
def isIssueClaimed (fs : FS) (now : Int) (issue_id : String) : Option String :=
  match lookupEntry fs.claims (sanitizeIssueId issue_id) with
  | some (some data) =>
    if data.worker_id ∈ activeIds fs now then some data.worker_id else none
  | _ => none

/-- Embedding of the standalone `check_issue_available`: an issue is available
when its claim file is missing or unparseable, older than the 120-second
stale-claim timeout, or owned by a worker whose heartbeat file (looked up by
the recorded worker id) is missing, unparseable, or older than 90 seconds. -/
def checkIssueAvailable (fs : FS) (now : Int) (issue_id : String) : Bool :=
  match lookupEntry fs.claims (sanitizeIssueId issue_id) with
  | none => true
  | some none => true
  | some (some data) =>
    if now - data.claimed_at > CLAIM_STALE_TIMEOUT_SECONDS then true
    else
      match lookupEntry fs.workers data.worker_id with
      | none => true
      | some none => true
      | some (some w) => if now - w.heartbeat > HEARTBEAT_TIMEOUT_SECONDS then true else false

/-- The per-path loop of `try_claim_issue_with_files` (source lines 422-432),
accumulating the paths locked so far in this call; on the first failing path
it rolls back every lock acquired in this call and releases the issue claim. -/
def claimFilesLoop (now : Int) (issue_id : String) :
    Coord → FS → List String → List String → Bool × List String × Coord × FS
  | c, fs, _claimed, [] => (true, [], c, fs)
  | c, fs, claimed, fp :: rest =>
    let r := tryClaimFile c fs now fp issue_id
    if r.1 then claimFilesLoop now issue_id r.2.1 r.2.2 (claimed ++ [fp]) rest
    else
      let rb := claimed.foldl releaseFileStep (r.2.1, r.2.2)
      let rc := releaseClaim rb.1 rb.2 now issue_id
      (false, [fp], rc.1, rc.2)

/-- The part of `try_claim_issue_with_files` that runs after the issue claim
has been acquired: lock each path in order, rolling back on failure; on
success rewrite the claim file with the final file list. -/
def claimFilesPhase (c : Coord) (fs : FS) (now : Int) (issue_id : String)
    (files : List String) : Bool × List String × Coord × FS :=
  let r := claimFilesLoop now issue_id c fs [] files
  if r.1 then (true, [], r.2.2.1, updateIssueClaimFiles r.2.2.2 issue_id files)
  else r

/-- Embedding of `try_claim_issue_with_files`: pre-flight conflict check,
then the issue claim, then the per-path locking phase with rollback. `none`
models the `RuntimeError` raised when the worker is not registered. -/
def tryClaimIssueWithFiles (c : Coord) (fs : FS) (now : Int) (issue_id : String)
    (files : List String) : Option (Bool × List String × Coord × FS) :=
  if ¬ c.registered then none
  else
    let cf := checkFileConflicts c fs now files
    if cf.1 ≠ [] then some (false, cf.1, c, fs)
    else
      match tryClaimIssue c fs now issue_id with
      | none => none
      | some r =>
        if ¬ r.1 then some (false, [], r.2.1, r.2.2)
        else some (claimFilesPhase r.2.1 r.2.2 now issue_id files)

/-- One serialization of N concurrent `try_claim_issue` calls on the same
issue id. The race's single mutation point is the atomic
`O_CREAT | O_EXCL` create, so concurrent calls serialize at that boundary;
each call observes the filesystem left by the previous one. A `none` result
records a call that raised (unregistered worker). -/
def runTryClaims (now : Int) (issue_id : String) :
    List Coord → FS → List (Option Bool) × FS
  | [], fs => ([], fs)
  | c :: cs, fs =>
    match tryClaimIssue c fs now issue_id with
    | none =>
      let r := runTryClaims now issue_id cs fs
      (none :: r.1, r.2)
    | some (b, _, fs1) =>
      let r := runTryClaims now issue_id cs fs1
      (some b :: r.1, r.2)

/-- A file-lock entry that `_cleanup_stale_file_locks` run by worker `c`
is entitled to sweep: either unparseable, or recorded to an owner that is
neither in the active set nor `c` itself. -/
def deadLockEntry (c : Coord) (fs : FS) (now : Int) (e : String × Option LockRec) : Prop :=
  match e.2 with
  | none => True
  | some d => d.worker_id ∉ activeIds fs now ∧ d.worker_id ≠ c.worker_id

instance (c : Coord) (fs : FS) (now : Int) :
    (e : String × Option LockRec) → Decidable (deadLockEntry c fs now e)
  | (_, none) => isTrue trivial
  | (_, some d) =>
    inferInstanceAs (Decidable (d.worker_id ∉ activeIds fs now ∧ d.worker_id ≠ c.worker_id))

/-! ## Concrete states used to instantiate the claim theorems -/

/-- Worker for the C4 witness. -/
def c4w : Coord := ⟨"w1", 1, 0, [], [], true⟩

/-- Empty shared directory for the C4 witness. -/
def fs4w : FS := ⟨[], [], [], none⟩

/-- Worker for the C1 witness, just after claiming issue X (as
`try_claim_issue_with_files` leaves it when entering the file loop). -/
def c1w : Coord := ⟨"w1", 1, 0, ["X"], [], true⟩

/-- Filesystem for the C1 witness: our fresh claim on X with an empty file
list, and file B locked by the live worker w2 (the lock that appeared between
the pre-flight check and the per-file loop). -/
def fs1w : FS :=
  ⟨[("w2", some ⟨"w2", 2, 0, 100, [], []⟩)],
   [("X", some ⟨"w1", "X", 100, 1, []⟩)],
   [("B", some ⟨"w2", "B", "OTHER", 100, 2⟩)], none⟩

/-- Concrete heartbeat store for the C7 theorems: one corrupt heartbeat file
(wA) and one fresh worker (wB). -/
def fs7w : FS := ⟨[("wA", none), ("wB", some ⟨"wB", 2, 0, 95, [], []⟩)], [], [], none⟩

/-- Concrete registering coordinator for the C7 witness. -/
def c7w : Coord := ⟨"wC", 3, 0, [], [], true⟩

/-- Concrete coordinator for the C6 theorems. -/
def c6w : Coord := ⟨"w1", 1, 0, [], [], true⟩

/-- Concrete filesystem for the C6 theorems: a single file lock owned by a
worker with no heartbeat file. -/
def fs6w : FS := ⟨[], [], [("p", some ⟨"dead", "p", "i", 0, 9⟩)], none⟩

/-- Three registered workers racing for the same issue (C2 witness). -/
def cs2w : List Coord :=
  [⟨"w1", 1, 0, [], [], true⟩, ⟨"w2", 2, 0, [], [], true⟩, ⟨"w3", 3, 0, [], [], true⟩]

/-- Empty shared directory for the C2 witness. -/
def fs2w : FS := ⟨[], [], [], none⟩

/-- A 201-character path for the C10 witness. -/
def p10w : String := String.mk (List.replicate 201 'a')

/-- Concrete instantiation of C3: worker w1, a claim file recorded by w2 with
no heartbeat file at all. -/
def c3w : Coord := ⟨"w1", 1, 0, [], [], true⟩

/-- Concrete filesystem for the C3 witness. -/
def fs3w : FS := ⟨[], [("ISS", some ⟨"w2", "ISS", 0, 2, []⟩)], [], none⟩

/-- Concrete filesystem refuting C5: issue X claimed at time 0 by w2 whose
heartbeat is 1 second old at time 200. -/
def fs5w : FS :=
  ⟨[("w2", some ⟨"w2", 2, 0, 199, [], []⟩)], [("X", some ⟨"w2", "X", 0, 2, []⟩)], [], none⟩

/-- Concrete coordinator for the C8 witness. -/
def c8w : Coord := ⟨"w1", 1, 0, [], [], true⟩

/-- Concrete filesystem for the C8 witness: issue Y claimed by the live
worker w2, with a file lock recorded in the claim's file list. -/
def fs8w : FS :=
  ⟨[("w2", some ⟨"w2", 2, 0, 95, [], []⟩)],
   [("Y", some ⟨"w2", "Y", 90, 2, ["f.py"]⟩)],
   [("f.py", some ⟨"w2", "f.py", "Y", 90, 2⟩)], none⟩

/-- Concrete coordinator for the C9 witness: the claim file on disk records
this worker's id while the in-memory set does not yet hold the issue. -/
def c9w : Coord := ⟨"w1", 1, 0, [], [], true⟩

/-- Concrete filesystem for the C9 witness. -/
def fs9w : FS := ⟨[], [("I", some ⟨"w1", "I", 0, 1, []⟩)], [], none⟩

/-! ## Store lemmas -/

theorem lookupEntry_nil {α : Type} (k : String) :
    lookupEntry ([] : List (String × α)) k = none := rfl

theorem lookupEntry_cons {α : Type} (e : String × α) (l : List (String × α)) (k : String) :
    lookupEntry (e :: l) k = if e.1 = k then some e.2 else lookupEntry l k := by
  by_cases h : e.1 = k
  · have hb : (e.1 == k) = true := beq_iff_eq.mpr h
    simp [lookupEntry, List.find?, hb, h]
  · have hb : (e.1 == k) = false := beq_eq_false_iff_ne.mpr h
    simp [lookupEntry, List.find?, hb, h]

theorem lookupEntry_append {α : Type} (l1 l2 : List (String × α)) (k : String) :
    lookupEntry (l1 ++ l2) k =
      match lookupEntry l1 k with
      | some v => some v
      | none => lookupEntry l2 k := by
  induction l1 with
  | nil => simp [lookupEntry_nil]
  | cons e t ih =>
    by_cases h : e.1 = k
    · simp [lookupEntry_cons, h]
    · simp [lookupEntry_cons, h, ih]

theorem removeEntry_cons {α : Type} (e : String × α) (t : List (String × α)) (k : String) :
    removeEntry (e :: t) k =
      if e.1 = k then removeEntry t k else e :: removeEntry t k := by
  by_cases h : e.1 = k
  · simp [removeEntry, List.filter_cons, h]
  · simp [removeEntry, List.filter_cons, h]

theorem lookupEntry_removeEntry_self {α : Type} (l : List (String × α)) (k : String) :
    lookupEntry (removeEntry l k) k = none := by
  induction l with
  | nil => rfl
  | cons e t ih =>
    rw [removeEntry_cons]
    by_cases h : e.1 = k
    · simpa [h] using ih
    · simpa [h, lookupEntry_cons] using ih

theorem lookupEntry_removeEntry_ne {α : Type} (l : List (String × α)) (k k' : String)
    (h : k' ≠ k) : lookupEntry (removeEntry l k) k' = lookupEntry l k' := by
  induction l with
  | nil => rfl
  | cons e t ih =>
    rw [removeEntry_cons]
    by_cases he : e.1 = k
    · have hkk : ¬ k = k' := fun hk => h hk.symm
      simp [he, ih, lookupEntry_cons, hkk]
    · simp [he, ih, lookupEntry_cons]

theorem lookupEntry_setEntry_self {α : Type} (l : List (String × α)) (k : String) (v : α) :
    lookupEntry (setEntry l k v) k = some v := by
  simp [setEntry, lookupEntry_append, lookupEntry_removeEntry_self, lookupEntry_cons]

theorem lookupEntry_setEntry_ne {α : Type} (l : List (String × α)) (k k' : String) (v : α)
    (h : k' ≠ k) : lookupEntry (setEntry l k v) k' = lookupEntry l k' := by
  rw [setEntry, lookupEntry_append, lookupEntry_removeEntry_ne l k k' h]
  cases hl : lookupEntry l k' with
  | some w => rfl
  | none =>
    have : ¬ k = k' := fun hk => h hk.symm
    simp [lookupEntry_cons, this, lookupEntry_nil]

theorem lookupEntry_filter_eq_none {α : Type} (l : List (String × α))
    (p : String × α → Bool) (k : String) (h : ∀ e ∈ l, e.1 = k → p e = false) :
    lookupEntry (l.filter p) k = none := by
  induction l with
  | nil => rfl
  | cons e t ih =>
    have ht : ∀ e' ∈ t, e'.1 = k → p e' = false := fun e' he' => h e' (List.mem_cons_of_mem _ he')
    by_cases hpe : p e
    · have hek : ¬ e.1 = k := fun hk => by simpa [hpe] using h e (List.mem_cons_self e t) hk
      simp [List.filter, hpe, lookupEntry_cons, hek, ih ht]
    · simp [List.filter, hpe, ih ht]

/-! ## Active-worker lemmas -/

theorem activeIds_eq_of_workers_eq (fs1 fs2 : FS) (now : Int)
    (h : fs1.workers = fs2.workers) : activeIds fs1 now = activeIds fs2 now := by
  simp [activeIds, getActiveWorkers, h]

theorem mem_activeList_iff (l : List (String × Option WorkerRec)) (now : Int) (w : String) :
    w ∈ (l.filterMap (fun e =>
        match e.2 with
        | some r => if now - r.heartbeat < HEARTBEAT_TIMEOUT_SECONDS then some r else none
        | none => none)).map (fun r => r.worker_id) ↔
      ∃ k r, (k, some r) ∈ l ∧ now - r.heartbeat < HEARTBEAT_TIMEOUT_SECONDS ∧
        r.worker_id = w := by
  induction l with
  | nil => simp
  | cons e t ih =>
    obtain ⟨k, v⟩ := e
    cases v with
    | none =>
      simp only [List.filterMap_cons, List.mem_cons, ih]
      constructor
      · rintro ⟨k', r', hmem, hfresh, hw⟩
        exact ⟨k', r', Or.inr hmem, hfresh, hw⟩
      · rintro ⟨k', r', hmem | hmem, hfresh, hw⟩
        · simp at hmem
        · exact ⟨k', r', hmem, hfresh, hw⟩
    | some r =>
      by_cases hfresh : now - r.heartbeat < HEARTBEAT_TIMEOUT_SECONDS
      · simp only [List.filterMap_cons, if_pos hfresh, List.map_cons, List.mem_cons, ih]
        constructor
        · rintro (hw | ⟨k', r', hmem, hf', hw⟩)
          · exact ⟨k, r, Or.inl rfl, hfresh, hw.symm⟩
          · exact ⟨k', r', Or.inr hmem, hf', hw⟩
        · rintro ⟨k', r', hmem | hmem, hf', hw⟩
          · simp only [Prod.mk.injEq] at hmem
            obtain ⟨rfl, hr⟩ := hmem
            obtain rfl : r' = r := Option.some.inj hr
            exact Or.inl hw.symm
          · exact Or.inr ⟨k', r', hmem, hf', hw⟩
      · simp only [List.filterMap_cons, if_neg hfresh, ih]
        constructor
        · rintro ⟨k', r', hmem, hf', hw⟩
          exact ⟨k', r', List.mem_cons_of_mem _ hmem, hf', hw⟩
        · rintro ⟨k', r', hmem, hf', hw⟩
          rcases List.mem_cons.mp hmem with hmem | hmem
          · simp only [Prod.mk.injEq] at hmem
            obtain ⟨rfl, hr⟩ := hmem
            obtain rfl : r' = r := Option.some.inj hr
            exact absurd hf' hfresh
          · exact ⟨k', r', hmem, hf', hw⟩

theorem mem_activeIds_iff (fs : FS) (now : Int) (w : String) :
    w ∈ activeIds fs now ↔
      ∃ k r, (k, some r) ∈ fs.workers ∧ now - r.heartbeat < HEARTBEAT_TIMEOUT_SECONDS ∧
        r.worker_id = w := by
  simpa [activeIds, getActiveWorkers] using mem_activeList_iff fs.workers now w

theorem activeIds_subset_of_sublist (fs1 fs2 : FS) (now : Int)
    (h : fs1.workers.Sublist fs2.workers) : activeIds fs1 now ⊆ activeIds fs2 now := by
  intro w hw
  rw [mem_activeIds_iff] at hw ⊢
  obtain ⟨k, r, hmem, hfresh, hwid⟩ := hw
  exact ⟨k, r, h.mem hmem, hfresh, hwid⟩

theorem self_mem_activeIds_updateHeartbeat (c : Coord) (fs : FS) (now : Int) :
    c.worker_id ∈ activeIds (updateHeartbeat c fs now) now := by
  rw [mem_activeIds_iff]
  refine ⟨c.worker_id, heartbeatData c now, ?_, by simp [heartbeatData, HEARTBEAT_TIMEOUT_SECONDS], rfl⟩
  simp [updateHeartbeat, setEntry]

theorem activeIds_updateHeartbeat_subset (c : Coord) (fs : FS) (now : Int) :
    activeIds (updateHeartbeat c fs now) now ⊆ c.worker_id :: activeIds fs now := by
  intro w hw
  rw [mem_activeIds_iff] at hw
  obtain ⟨k, r, hmem, hfresh, hwid⟩ := hw
  simp only [updateHeartbeat, setEntry] at hmem
  rcases List.mem_append.mp hmem with hrem | hlast
  · have : (k, some r) ∈ fs.workers := List.mem_of_mem_filter hrem
    exact List.mem_cons_of_mem _ ((mem_activeIds_iff fs now w).mpr ⟨k, r, this, hfresh, hwid⟩)
  · simp only [List.mem_singleton, Prod.mk.injEq] at hlast
    obtain ⟨-, hr⟩ := hlast
    obtain rfl : r = heartbeatData c now := by simpa using hr
    simp [heartbeatData] at hwid
    simp [hwid]

/-! ## C3: stale reclamation by try_claim_issue -/

/-- C3: if a claim file for an issue exists but its recorded owner is not in
the active-worker set (no heartbeat with age under the 90-second liveness
timeout), a registered worker's `try_claim_issue` deletes the stale claim and
acquires the claim itself, returning True: the resulting claim file records
this worker and the issue joins its in-memory claim set. -/
theorem tryClaimIssue_stale_reclaim (c : Coord) (fs : FS) (now : Int) (issue : String)
    (rec : ClaimRec)
    (hreg : c.registered = true)
    (hnm : issue ∉ c.claimed_issues)
    (hfile : lookupEntry fs.claims (sanitizeIssueId issue) = some (some rec))
    (hother : rec.worker_id ≠ c.worker_id)
    (hdead : rec.worker_id ∉ activeIds fs now) :
    ∃ c1 fs1, tryClaimIssue c fs now issue = some (true, c1, fs1) ∧
      lookupEntry fs1.claims (sanitizeIssueId issue) =
        some (some ⟨c.worker_id, issue, now, c.pid, []⟩) ∧
      issue ∈ c1.claimed_issues := by
  have hbeq : (rec.worker_id == c.worker_id) = false := beq_eq_false_iff_ne.mpr hother
  have hrm : lookupEntry (removeEntry fs.claims (sanitizeIssueId issue))
      (sanitizeIssueId issue) = none :=
    lookupEntry_removeEntry_self _ _
  refine ⟨{ c with claimed_issues := c.claimed_issues ++ [issue] },
    updateHeartbeat { c with claimed_issues := c.claimed_issues ++ [issue] }
      { fs with claims := (setEntry (removeEntry fs.claims (sanitizeIssueId issue))
        (sanitizeIssueId issue) (some ⟨c.worker_id, issue, now, c.pid, []⟩)) } now,
    ?_, ?_, ?_⟩
  · simp only [tryClaimIssue, hreg, hnm, hfile, hbeq, hdead]
    simp [acquireIssueClaim, hrm, hreg]
  · simp [updateHeartbeat, lookupEntry_setEntry_self]
  · simp

theorem tryClaimIssue_stale_reclaim_witness :
    c3w.registered = true ∧ "ISS" ∉ c3w.claimed_issues ∧
    lookupEntry fs3w.claims (sanitizeIssueId "ISS") = some (some ⟨"w2", "ISS", 0, 2, []⟩) ∧
    ("w2" : String) ≠ "w1" ∧ "w2" ∉ activeIds fs3w 100 ∧
    (∃ c1 fs1, tryClaimIssue c3w fs3w 100 "ISS" = some (true, c1, fs1) ∧
      lookupEntry fs1.claims (sanitizeIssueId "ISS") =
        some (some ⟨"w1", "ISS", 100, 1, []⟩) ∧
      "ISS" ∈ c1.claimed_issues) :=
  ⟨rfl, by decide, by decide, by decide, by decide,
    tryClaimIssue_stale_reclaim c3w fs3w 100 "ISS" ⟨"w2", "ISS", 0, 2, []⟩
      rfl (by decide) (by decide) (by decide) (by decide)⟩

/-! ## C5: claim liveness and claim age -/

/-- C5 counterexample: at time 200 the claim on X is 200 seconds old, well
past the 120-second stale-claim timeout, and its owner's heartbeat is fresh;
`is_issue_claimed` still reports the owner instead of None, because the
method checks only heartbeat freshness and never the claim's age. -/
theorem isIssueClaimed_ignores_claim_age :
    (200 : Int) - 0 > CLAIM_STALE_TIMEOUT_SECONDS ∧
    (200 : Int) - 199 < HEARTBEAT_TIMEOUT_SECONDS ∧
    isIssueClaimed fs5w 200 "X" = some "w2" := by decide

/-- C5 amended: `is_issue_claimed` returns the recorded owner whenever the
owner's heartbeat is fresh, regardless of the claim's age; the claim-age half
of the liveness definition lives in the standalone `check_issue_available`,
which reports an issue with a claim older than 120 seconds as available even
while `is_issue_claimed` still names the owner. -/
theorem claim_liveness_amended (fs : FS) (now : Int) (issue : String) (rec : ClaimRec)
    (hfile : lookupEntry fs.claims (sanitizeIssueId issue) = some (some rec))
    (hfresh : rec.worker_id ∈ activeIds fs now) :
    isIssueClaimed fs now issue = some rec.worker_id ∧
    (now - rec.claimed_at > CLAIM_STALE_TIMEOUT_SECONDS →
      checkIssueAvailable fs now issue = true) := by
  constructor
  · simp [isIssueClaimed, hfile, hfresh]
  · intro hage
    simp [checkIssueAvailable, hfile, hage]

theorem claim_liveness_amended_witness :
    lookupEntry fs5w.claims (sanitizeIssueId "X") = some (some ⟨"w2", "X", 0, 2, []⟩) ∧
    ("w2" : String) ∈ activeIds fs5w 200 ∧
    (isIssueClaimed fs5w 200 "X" = some (ClaimRec.worker_id ⟨"w2", "X", 0, 2, []⟩) ∧
      ((200 : Int) - ClaimRec.claimed_at ⟨"w2", "X", 0, 2, []⟩ > CLAIM_STALE_TIMEOUT_SECONDS →
        checkIssueAvailable fs5w 200 "X" = true)) :=
  ⟨by decide, by decide,
    claim_liveness_amended fs5w 200 "X" ⟨"w2", "X", 0, 2, []⟩ (by decide) (by decide)⟩

/-! ## C8: ownership-gated release -/

/-- C8: when the claim file for an issue records a different, still-live
worker, `release_claim` by this worker leaves the claim store untouched (the
file is neither deleted nor rewritten) and releases none of the file locks:
mutation is gated on the re-read record's worker id equalling our own. -/
theorem releaseClaim_ownership_gated (c : Coord) (fs : FS) (now : Int) (issue : String)
    (rec : ClaimRec)
    (hfile : lookupEntry fs.claims (sanitizeIssueId issue) = some (some rec))
    (hother : rec.worker_id ≠ c.worker_id)
    (_hlive : rec.worker_id ∈ activeIds fs now) :
    (releaseClaim c fs now issue).2.claims = fs.claims ∧
    (releaseClaim c fs now issue).2.locks = fs.locks := by
  have hbeq : (rec.worker_id == c.worker_id) = false := beq_eq_false_iff_ne.mpr hother
  constructor
  · simp [releaseClaim, hfile, hbeq, updateHeartbeat]
  · simp [releaseClaim, hfile, hbeq, updateHeartbeat]

theorem releaseClaim_ownership_gated_witness :
    lookupEntry fs8w.claims (sanitizeIssueId "Y") = some (some ⟨"w2", "Y", 90, 2, ["f.py"]⟩) ∧
    ("w2" : String) ≠ "w1" ∧ ("w2" : String) ∈ activeIds fs8w 100 ∧
    ((releaseClaim c8w fs8w 100 "Y").2.claims = fs8w.claims ∧
      (releaseClaim c8w fs8w 100 "Y").2.locks = fs8w.locks) :=
  ⟨by decide, by decide, by decide,
    releaseClaim_ownership_gated c8w fs8w 100 "Y" ⟨"w2", "Y", 90, 2, ["f.py"]⟩
      (by decide) (by decide) (by decide)⟩

/-! ## C9: idempotent self-claim -/

/-- C9: a registered worker that already holds an issue (in its in-memory
claim set, or recorded as owner in the on-disk claim file) gets True from a
further `try_claim_issue`, the filesystem is completely unchanged (no new
file is created), and the in-memory claim set holds exactly one entry for
the issue. -/
theorem tryClaimIssue_idempotent (c : Coord) (fs : FS) (now : Int) (issue : String)
    (hreg : c.registered = true)
    (h : (issue ∈ c.claimed_issues ∧ c.claimed_issues.count issue = 1) ∨
      (issue ∉ c.claimed_issues ∧
        ∃ rec, lookupEntry fs.claims (sanitizeIssueId issue) = some (some rec) ∧
          rec.worker_id = c.worker_id)) :
    ∃ c1, tryClaimIssue c fs now issue = some (true, c1, fs) ∧
      c1.claimed_issues.count issue = 1 := by
  rcases h with ⟨hmem, hcount⟩ | ⟨hnm, rec, hfile, hown⟩
  · exact ⟨c, by simp [tryClaimIssue, hreg, hmem], hcount⟩
  · have hbeq : (rec.worker_id == c.worker_id) = true := beq_iff_eq.mpr hown
    refine ⟨{ c with claimed_issues := c.claimed_issues ++ [issue] }, ?_, ?_⟩
    · simp [tryClaimIssue, hreg, hnm, hfile, hbeq]
    · simp [List.count_append, List.count_eq_zero.mpr hnm]

theorem tryClaimIssue_idempotent_witness :
    c9w.registered = true ∧
    (("I" ∈ c9w.claimed_issues ∧ c9w.claimed_issues.count "I" = 1) ∨
      ("I" ∉ c9w.claimed_issues ∧
        ∃ rec, lookupEntry fs9w.claims (sanitizeIssueId "I") = some (some rec) ∧
          rec.worker_id = c9w.worker_id)) ∧
    (∃ c1, tryClaimIssue c9w fs9w 50 "I" = some (true, c1, fs9w) ∧
      c1.claimed_issues.count "I" = 1) :=
  ⟨rfl, Or.inr ⟨by decide, ⟨⟨"w1", "I", 0, 1, []⟩, by decide, rfl⟩⟩,
    tryClaimIssue_idempotent c9w fs9w 50 "I" rfl
      (Or.inr ⟨by decide, ⟨⟨"w1", "I", 0, 1, []⟩, by decide, rfl⟩⟩)⟩

/-! ## C7: get_active_workers and corrupt heartbeat files -/

theorem mem_getActiveList_iff (l : List (String × Option WorkerRec)) (now : Int)
    (r : WorkerRec) :
    r ∈ l.filterMap (fun e =>
        match e.2 with
        | some r => if now - r.heartbeat < HEARTBEAT_TIMEOUT_SECONDS then some r else none
        | none => none) ↔
      ∃ k, (k, some r) ∈ l ∧ now - r.heartbeat < HEARTBEAT_TIMEOUT_SECONDS := by
  induction l with
  | nil => simp
  | cons e t ih =>
    obtain ⟨k, v⟩ := e
    cases v with
    | none =>
      simp only [List.filterMap_cons, ih]
      constructor
      · rintro ⟨k', hmem, hf⟩
        exact ⟨k', List.mem_cons_of_mem _ hmem, hf⟩
      · rintro ⟨k', hmem, hf⟩
        rcases List.mem_cons.mp hmem with hmem | hmem
        · simp at hmem
        · exact ⟨k', hmem, hf⟩
    | some r' =>
      by_cases hfresh : now - r'.heartbeat < HEARTBEAT_TIMEOUT_SECONDS
      · simp only [List.filterMap_cons, if_pos hfresh, List.mem_cons, ih]
        constructor
        · rintro (rfl | ⟨k', hmem, hf⟩)
          · exact ⟨k, Or.inl rfl, hfresh⟩
          · exact ⟨k', Or.inr hmem, hf⟩
        · rintro ⟨k', hmem | hmem, hf⟩
          · simp only [Prod.mk.injEq] at hmem
            obtain ⟨rfl, hr⟩ := hmem
            obtain rfl : r = r' := Option.some.inj hr
            exact Or.inl rfl
          · exact Or.inr ⟨k', hmem, hf⟩
      · simp only [List.filterMap_cons, if_neg hfresh, ih]
        constructor
        · rintro ⟨k', hmem, hf⟩
          exact ⟨k', List.mem_cons_of_mem _ hmem, hf⟩
        · rintro ⟨k', hmem, hf⟩
          rcases List.mem_cons.mp hmem with hmem | hmem
          · simp only [Prod.mk.injEq] at hmem
            obtain ⟨rfl, hr⟩ := hmem
            obtain rfl : r = r' := Option.some.inj hr
            exact absurd hf hfresh
          · exact ⟨k', hmem, hf⟩

theorem cleanupStaleWorkers_removes_key (c : Coord) (fs : FS) (now : Int) (k : String)
    (hcorrupt : ∀ e ∈ fs.workers, e.1 = k → e.2 = none)
    (hkc : k ≠ c.worker_id) :
    lookupEntry (cleanupStaleWorkers c fs now).workers k = none := by
  simp only [cleanupStaleWorkers]
  apply lookupEntry_filter_eq_none
  intro e hmem hek
  have h2 := hcorrupt e hmem hek
  have hb : (e.1 == c.worker_id) = false :=
    beq_eq_false_iff_ne.mpr (hek.symm ▸ hkc)
  simp [h2, hb]

/-- C7 counterexample: a heartbeat store with a corrupt file wA and a fresh
worker wB. `get_active_workers` discards wA from its result but performs no
unlink: the corrupt file is still on disk after the call, contradicting the
claim that a file failing to parse is deleted by this function (deletion
happens only in `_cleanup_stale_workers`, which `register` invokes). -/
theorem getActiveWorkers_corrupt_not_deleted :
    (getActiveWorkers fs7w 100).1 = [⟨"wB", 2, 0, 95, [], []⟩] ∧
    (getActiveWorkers fs7w 100).2.workers =
      [("wA", none), ("wB", some ⟨"wB", 2, 0, 95, [], []⟩)] := by
  decide

/-- C7 amended: `get_active_workers` returns exactly the heartbeat records
that parse and whose age is strictly below the 90-second timeout, and it
mutates nothing — an unparseable heartbeat file is discarded from the result
but not deleted; deletion of a corrupt heartbeat file (other than the
caller's own) is performed by `_cleanup_stale_workers`, which runs during
`register`. -/
theorem getActiveWorkers_amended (c : Coord) (fs : FS) (now : Int) (k : String)
    (r : WorkerRec)
    (hcorrupt : ∀ e ∈ fs.workers, e.1 = k → e.2 = none)
    (hkc : k ≠ c.worker_id) :
    (getActiveWorkers fs now).2 = fs ∧
    lookupEntry (cleanupStaleWorkers c fs now).workers k = none ∧
    (r ∈ (getActiveWorkers fs now).1 ↔
      ∃ k2, (k2, some r) ∈ fs.workers ∧ now - r.heartbeat < HEARTBEAT_TIMEOUT_SECONDS) := by
  refine ⟨rfl, cleanupStaleWorkers_removes_key c fs now k hcorrupt hkc, ?_⟩
  simpa [getActiveWorkers] using mem_getActiveList_iff fs.workers now r

theorem getActiveWorkers_amended_witness :
    (∀ e ∈ fs7w.workers, e.1 = "wA" → e.2 = none) ∧ ("wA" : String) ≠ "wC" ∧
    ((getActiveWorkers fs7w 100).2 = fs7w ∧
      lookupEntry (cleanupStaleWorkers c7w fs7w 100).workers "wA" = none ∧
      ((⟨"wB", 2, 0, 95, [], []⟩ : WorkerRec) ∈ (getActiveWorkers fs7w 100).1 ↔
        ∃ k2, (k2, some (⟨"wB", 2, 0, 95, [], []⟩ : WorkerRec)) ∈ fs7w.workers ∧
          (100 : Int) - 95 < HEARTBEAT_TIMEOUT_SECONDS)) :=
  ⟨by decide, by decide,
    getActiveWorkers_amended c7w fs7w 100 "wA" ⟨"wB", 2, 0, 95, [], []⟩
      (by decide) (by decide)⟩

/-! ## C6: orphaned file locks and check_file_conflicts -/

theorem cleanupStaleInitLock_frame (fs : FS) (now : Int) :
    (cleanupStaleInitLock fs now).workers = fs.workers ∧
    (cleanupStaleInitLock fs now).claims = fs.claims ∧
    (cleanupStaleInitLock fs now).locks = fs.locks := by
  unfold cleanupStaleInitLock
  rcases h : fs.initLock with _ | il
  · exact ⟨rfl, rfl, rfl⟩
  · rcases il with _ | d
    · exact ⟨rfl, rfl, rfl⟩
    · by_cases h1 : now - d.locked_at > INIT_LOCK_TIMEOUT_SECONDS
      · simp [h1]
      · by_cases h2 : d.worker_id ∈ activeIds fs now <;> simp [h1, h2]

theorem register_sweeps_dead_locks (c : Coord) (fs : FS) (now : Int) (k : String)
    (hdead : ∀ e ∈ fs.locks, e.1 = k → deadLockEntry c fs now e) :
    lookupEntry ((register c fs now).2).locks k = none := by
  have hreg : (register c fs now).2 =
      cleanupStaleFileLocks
        (cleanupStaleClaims
          (cleanupStaleInitLock
            (cleanupStaleWorkers { c with registered := true }
              (updateHeartbeat c fs now) now) now) now) now := rfl
  set c1 : Coord := { c with registered := true }
  set fs1 : FS := updateHeartbeat c fs now with hfs1
  set fs2 : FS := cleanupStaleWorkers c1 fs1 now with hfs2
  set fs3 : FS := cleanupStaleInitLock fs2 now with hfs3
  set fs4 : FS := cleanupStaleClaims fs3 now with hfs4
  have hw3 : fs3.workers = fs2.workers := (cleanupStaleInitLock_frame fs2 now).1
  have hw4 : fs4.workers = fs3.workers := rfl
  have hl3 : fs3.locks = fs2.locks := (cleanupStaleInitLock_frame fs2 now).2.2
  have hlocks4 : fs4.locks = fs.locks := by
    rw [hfs4]
    show fs3.locks = fs.locks
    rw [hl3, hfs2]
    rfl
  have hsub : activeIds fs4 now ⊆ c.worker_id :: activeIds fs now := by
    intro w hw
    have h42 : activeIds fs4 now = activeIds fs2 now :=
      activeIds_eq_of_workers_eq fs4 fs2 now (hw4.trans hw3)
    rw [h42] at hw
    have h21 : activeIds fs2 now ⊆ activeIds fs1 now := by
      apply activeIds_subset_of_sublist
      rw [hfs2]
      exact List.filter_sublist _
    have h10 : activeIds fs1 now ⊆ c.worker_id :: activeIds fs now := by
      rw [hfs1]
      exact activeIds_updateHeartbeat_subset c fs now
    exact h10 (h21 hw)
  rw [hreg]
  simp only [cleanupStaleFileLocks]
  apply lookupEntry_filter_eq_none
  intro e hmem hek
  have hd := hdead e (by rw [hlocks4] at hmem; exact hmem) hek
  rcases e with ⟨k', v⟩
  cases v with
  | none => rfl
  | some d =>
    obtain ⟨hnotin, hne⟩ := hd
    have hnot4 : d.worker_id ∉ activeIds fs4 now := by
      intro hmem4
      rcases List.mem_cons.mp (hsub hmem4) with heq | hmemfs
      · exact hne heq
      · exact hnotin hmemfs
    simp [hnot4]

/-- C6 counterexample: a lock store with one orphaned lock (owner has no
heartbeat file). `check_file_conflicts` omits it from the conflict list but
performs no unlink: the orphaned lock file is still on disk after the call,
contradicting the claim that this function deletes the locks it reads whose
owner is dead. -/
theorem checkFileConflicts_does_not_sweep :
    (checkFileConflicts c6w fs6w 100 ["p"]).1 = [] ∧
    (checkFileConflicts c6w fs6w 100 ["p"]).2.locks =
      [("p", some ⟨"dead", "p", "i", 0, 9⟩)] ∧
    ("dead" : String) ∉ activeIds fs6w 100 := by
  decide

/-- C6 amended: `check_file_conflicts` merely omits dead-owner locks from
its returned conflict list and deletes nothing; orphaned file locks (owner
absent from the active set) are swept from disk by
`_cleanup_stale_file_locks`, which runs as part of `register`. -/
theorem fileLock_sweep_amended (c : Coord) (fs : FS) (now : Int) (files : List String)
    (k : String)
    (hdead : ∀ e ∈ fs.locks, e.1 = k → deadLockEntry c fs now e) :
    (checkFileConflicts c fs now files).2 = fs ∧
    lookupEntry ((register c fs now).2).locks k = none :=
  ⟨rfl, register_sweeps_dead_locks c fs now k hdead⟩

theorem fileLock_sweep_amended_witness :
    (∀ e ∈ fs6w.locks, e.1 = "p" → deadLockEntry c6w fs6w 100 e) ∧
    ((checkFileConflicts c6w fs6w 100 ["p"]).2 = fs6w ∧
      lookupEntry ((register c6w fs6w 100).2).locks "p" = none) :=
  ⟨by decide, fileLock_sweep_amended c6w fs6w 100 ["p"] "p" (by decide)⟩

/-! ## C2: per-issue mutual exclusion -/

theorem tryClaimIssue_wins (c : Coord) (fs : FS) (now : Int) (issue : String)
    (hreg : c.registered = true)
    (hnm : issue ∉ c.claimed_issues)
    (hfree : lookupEntry fs.claims (sanitizeIssueId issue) = none) :
    tryClaimIssue c fs now issue =
      some (true, { c with claimed_issues := c.claimed_issues ++ [issue] },
        updateHeartbeat { c with claimed_issues := c.claimed_issues ++ [issue] }
          { fs with claims := (setEntry fs.claims (sanitizeIssueId issue)
            (some ⟨c.worker_id, issue, now, c.pid, []⟩)) } now) := by
  simp only [tryClaimIssue, hreg, hnm, hfree]
  simp [acquireIssueClaim, hfree, hreg]

theorem tryClaimIssue_loses (c : Coord) (fs : FS) (now : Int) (issue : String)
    (rec : ClaimRec)
    (hreg : c.registered = true)
    (hnm : issue ∉ c.claimed_issues)
    (hfile : lookupEntry fs.claims (sanitizeIssueId issue) = some (some rec))
    (hother : rec.worker_id ≠ c.worker_id)
    (hlive : rec.worker_id ∈ activeIds fs now) :
    tryClaimIssue c fs now issue = some (false, c, fs) := by
  have hbeq : (rec.worker_id == c.worker_id) = false := beq_eq_false_iff_ne.mpr hother
  simp [tryClaimIssue, hreg, hnm, hfile, hbeq, hlive]

theorem runTryClaims_all_false (now : Int) (issue : String) (cs : List Coord) (fs : FS)
    (rec : ClaimRec)
    (hfile : lookupEntry fs.claims (sanitizeIssueId issue) = some (some rec))
    (hlive : rec.worker_id ∈ activeIds fs now)
    (hcs : ∀ c ∈ cs, c.registered = true ∧ issue ∉ c.claimed_issues ∧
      c.worker_id ≠ rec.worker_id) :
    runTryClaims now issue cs fs = (List.replicate cs.length (some false), fs) := by
  induction cs with
  | nil => rfl
  | cons c t ih =>
    obtain ⟨hreg, hnm, hne⟩ := hcs c (List.mem_cons_self c t)
    have hl := tryClaimIssue_loses c fs now issue rec hreg hnm hfile hne.symm hlive
    have ht := ih (fun c' hc' => hcs c' (List.mem_cons_of_mem _ hc'))
    simp [runTryClaims, hl, ht, List.replicate_succ]

/-- C2: per-issue mutual exclusion. When N registered workers with pairwise
distinct ids, none already holding the issue, race `try_claim_issue` on the
same unclaimed issue id, exactly one call returns True and the other N-1
return False. The calls serialize at the `O_CREAT | O_EXCL` exclusive create
— the sole mutation point of the race — so `runTryClaims` captures every
interleaving; per resource there is one claim file path, hence at most one
claim record in any state. -/
theorem tryClaim_mutual_exclusion (cs : List Coord) (fs : FS) (now : Int) (issue : String)
    (hne : cs ≠ [])
    (hreg : ∀ c ∈ cs, c.registered = true)
    (hown : ∀ c ∈ cs, issue ∉ c.claimed_issues)
    (hdist : (cs.map (fun c => c.worker_id)).Nodup)
    (hfree : lookupEntry fs.claims (sanitizeIssueId issue) = none) :
    (runTryClaims now issue cs fs).1.count (some true) = 1 ∧
    (runTryClaims now issue cs fs).1.count (some false) = cs.length - 1 := by
  obtain ⟨c, t, rfl⟩ := List.exists_cons_of_ne_nil hne
  have hw := tryClaimIssue_wins c fs now issue
    (hreg c (List.mem_cons_self c t)) (hown c (List.mem_cons_self c t)) hfree
  have hpw : ∀ b ∈ t, c.worker_id ≠ b.worker_id := by
    have := (List.pairwise_map.mp hdist)
    exact (List.pairwise_cons.mp this).1
  have hfile : lookupEntry
      (updateHeartbeat { c with claimed_issues := c.claimed_issues ++ [issue] }
        { fs with claims := (setEntry fs.claims (sanitizeIssueId issue)
          (some ⟨c.worker_id, issue, now, c.pid, []⟩)) } now).claims
      (sanitizeIssueId issue) =
      some (some ⟨c.worker_id, issue, now, c.pid, []⟩) := by
    simp [updateHeartbeat, lookupEntry_setEntry_self]
  have hlive : (ClaimRec.worker_id ⟨c.worker_id, issue, now, c.pid, []⟩) ∈
      activeIds (updateHeartbeat { c with claimed_issues := c.claimed_issues ++ [issue] }
        { fs with claims := (setEntry fs.claims (sanitizeIssueId issue)
          (some ⟨c.worker_id, issue, now, c.pid, []⟩)) } now) now := by
    exact self_mem_activeIds_updateHeartbeat
      { c with claimed_issues := c.claimed_issues ++ [issue] } _ now
  have ht := runTryClaims_all_false now issue t _ ⟨c.worker_id, issue, now, c.pid, []⟩
    hfile hlive
    (fun c' hc' => ⟨hreg c' (List.mem_cons_of_mem _ hc'),
      hown c' (List.mem_cons_of_mem _ hc'), fun h => hpw c' hc' h.symm⟩)
  constructor
  · simp [runTryClaims, hw, ht, List.count_cons, List.count_replicate]
  · simp [runTryClaims, hw, ht, List.count_cons, List.count_replicate]

theorem tryClaim_mutual_exclusion_witness :
    cs2w ≠ [] ∧ (∀ c ∈ cs2w, c.registered = true) ∧
    (∀ c ∈ cs2w, "A" ∉ c.claimed_issues) ∧
    (cs2w.map (fun c => c.worker_id)).Nodup ∧
    lookupEntry fs2w.claims (sanitizeIssueId "A") = none ∧
    ((runTryClaims 100 "A" cs2w fs2w).1.count (some true) = 1 ∧
      (runTryClaims 100 "A" cs2w fs2w).1.count (some false) = cs2w.length - 1) :=
  ⟨by decide, by decide, by decide, by decide, by decide,
    tryClaim_mutual_exclusion cs2w fs2w 100 "A"
      (by decide) (by decide) (by decide) (by decide) (by decide)⟩

/-! ## C10: path sanitization -/

theorem sanitizeChar_length_pos (a : Char) : 1 ≤ (sanitizeChar a).length := by
  unfold sanitizeChar
  by_cases h1 : a = '/'
  · simp [h1]
  · by_cases h2 : a = '\\'
    · simp [h1, h2]
    · by_cases h3 : a = ':' <;> simp [h1, h2, h3]

theorem sanitize_flatten_length (l : List Char) :
    l.length ≤ ((l.map sanitizeChar).flatten).length := by
  induction l with
  | nil => simp
  | cons a t ih =>
    simp only [List.map_cons, List.flatten_cons, List.length_append, List.length_cons]
    have := sanitizeChar_length_pos a
    omega

theorem presanitize_length_ge (p : String) : p.length ≤ (presanitize p).length :=
  sanitize_flatten_length p.data

theorem md5Bytes_length (msg : List Nat) : (md5Bytes msg).length = 16 := rfl

theorem md5hex_data_length (msg : List Nat) : (md5hex msg).data.length = 32 := rfl

theorem md5hex8_length (p : String) : (md5hex8 p).length = 8 := rfl

/-- C10 counterexample: sanitization is not collision-resistant — the
distinct paths `a/b` and `a\b` map to the same lock-file key `a__b`, because
slash and backslash are both replaced by the same two-underscore separator. -/
theorem sanitizePath_not_injective :
    sanitizePath "a/b" = sanitizePath "a\\b" ∧ "a/b" ≠ "a\\b" := by
  decide

/-- C10 amended: `_sanitize_path` is a deterministic function of the path,
but distinct paths may collide (`a/b` and `a\b` share a key). For every path
longer than 200 characters (the sanitized form is at least as long as the
input, so the 200-character test on the sanitized form fires), the key is
the 190-character prefix of the sanitized form joined by an underscore with
the 8-hex-character MD5 of the full original path, giving a fixed key length
of 199, within filesystem limits. -/
theorem sanitizePath_long_amended (p : String) (h : 200 < p.length) :
    sanitizePath p =
      String.mk ((presanitize p).data.take 190 ++ '_' :: (md5hex8 p).data) ∧
    (sanitizePath p).length = 199 ∧ (md5hex8 p).length = 8 := by
  have hlen : 200 < (presanitize p).length := lt_of_lt_of_le h (presanitize_length_ge p)
  have hmd : (md5hex8 p).length = 8 := md5hex8_length p
  have heq : sanitizePath p =
      String.mk ((presanitize p).data.take 190 ++ '_' :: (md5hex8 p).data) := by
    simp [sanitizePath, hlen]
  refine ⟨heq, ?_, hmd⟩
  rw [heq]
  have hdata : (presanitize p).data.length = (presanitize p).length := rfl
  have hmdata : (md5hex8 p).data.length = 8 := hmd
  simp only [String.length, List.length_append, List.length_take, List.length_cons, hmdata]
  omega

theorem sanitizePath_long_amended_witness :
    200 < p10w.length ∧
    (sanitizePath p10w =
        String.mk ((presanitize p10w).data.take 190 ++ '_' :: (md5hex8 p10w).data) ∧
      (sanitizePath p10w).length = 199 ∧ (md5hex8 p10w).length = 8) :=
  ⟨by decide, sanitizePath_long_amended p10w (by decide)⟩

/-! ## File-lock step lemmas (shared by C1 and C4) -/

theorem tryClaimFile_acquires (c : Coord) (fs : FS) (now : Int) (fp issue : String)
    (hnm : fp ∉ c.claimed_files)
    (habs : lookupEntry fs.locks (sanitizePath fp) = none) :
    tryClaimFile c fs now fp issue =
      (true, { c with claimed_files := c.claimed_files ++ [fp] },
        { fs with locks := (setEntry fs.locks (sanitizePath fp)
          (some ⟨c.worker_id, fp, issue, now, c.pid⟩)) }) := by
  simp [tryClaimFile, hnm, habs, acquireFileLock]

theorem tryClaimFile_fails (c : Coord) (fs : FS) (now : Int) (fp issue : String)
    (d : LockRec)
    (hnm : fp ∉ c.claimed_files)
    (hlock : lookupEntry fs.locks (sanitizePath fp) = some (some d))
    (hother : d.worker_id ≠ c.worker_id)
    (hlive : d.worker_id ∈ activeIds fs now) :
    tryClaimFile c fs now fp issue = (false, c, fs) := by
  have hbeq : (d.worker_id == c.worker_id) = false := beq_eq_false_iff_ne.mpr hother
  simp [tryClaimFile, hnm, hlock, hbeq, hlive]

theorem releaseFile_own (c : Coord) (fs : FS) (fp : String) (d : LockRec)
    (hlock : lookupEntry fs.locks (sanitizePath fp) = some (some d))
    (hown : d.worker_id = c.worker_id) :
    releaseFile c fs fp =
      ({ c with claimed_files := c.claimed_files.erase fp },
       { fs with locks := removeEntry fs.locks (sanitizePath fp) }) := by
  have hbeq : (d.worker_id == c.worker_id) = true := beq_iff_eq.mpr hown
  simp [releaseFile, hlock, hbeq]

theorem conflict_foldl_skip (c : Coord) (fs : FS) (act : List String) :
    ∀ (files acc : List String),
      (∀ q ∈ files, lookupEntry fs.locks (sanitizePath q) = none) →
      files.foldl (conflictStep c fs act) acc = acc := by
  intro files
  induction files with
  | nil => intro acc _; rfl
  | cons q t ih =>
    intro acc h
    have hq := h q (List.mem_cons_self q t)
    simp only [List.foldl_cons, conflictStep, hq]
    exact ih acc (fun q' hq' => h q' (List.mem_cons_of_mem _ hq'))

theorem checkFileConflicts_all_absent (c : Coord) (fs : FS) (now : Int)
    (files : List String)
    (h : ∀ q ∈ files, lookupEntry fs.locks (sanitizePath q) = none) :
    (checkFileConflicts c fs now files).1 = [] := by
  simp only [checkFileConflicts]
  exact conflict_foldl_skip c fs (activeIds fs now) files [] h

theorem rollbackFold (w : String) :
    ∀ (acc : List String) (c : Coord) (fs : FS) (base : List String),
      c.worker_id = w →
      c.claimed_files = base ++ acc →
      (∀ q ∈ acc, q ∉ base) →
      (acc.map sanitizePath).Nodup →
      (∀ q ∈ acc, ∃ dq, lookupEntry fs.locks (sanitizePath q) = some (some dq) ∧
        dq.worker_id = w) →
      (acc.foldl releaseFileStep (c, fs)).1.worker_id = c.worker_id ∧
      (acc.foldl releaseFileStep (c, fs)).1.claimed_issues = c.claimed_issues ∧
      (acc.foldl releaseFileStep (c, fs)).1.claimed_files = base ∧
      (acc.foldl releaseFileStep (c, fs)).2.claims = fs.claims ∧
      (acc.foldl releaseFileStep (c, fs)).2.workers = fs.workers ∧
      (∀ q ∈ acc,
        lookupEntry (acc.foldl releaseFileStep (c, fs)).2.locks (sanitizePath q) = none) ∧
      (∀ s, s ∉ acc.map sanitizePath →
        lookupEntry (acc.foldl releaseFileStep (c, fs)).2.locks s =
          lookupEntry fs.locks s) := by
  intro acc
  induction acc with
  | nil =>
    intro c fs base hw hcf hnb hnd hown
    refine ⟨rfl, rfl, ?_, rfl, rfl, ?_, ?_⟩
    · simpa using hcf
    · intro q hq; simp at hq
    · intro s _; rfl
  | cons q rest ih =>
    intro c fs base hw hcf hnb hnd hown
    obtain ⟨dq, hlq, hdw⟩ := hown q (List.mem_cons_self q rest)
    have hdc : dq.worker_id = c.worker_id := hdw.trans hw.symm
    have hstep : releaseFileStep (c, fs) q =
        ({ c with claimed_files := c.claimed_files.erase q },
         { fs with locks := removeEntry fs.locks (sanitizePath q) }) := by
      simp only [releaseFileStep]
      exact releaseFile_own c fs q dq hlq hdc
    have hqb : q ∉ base := hnb q (List.mem_cons_self q rest)
    have herase : c.claimed_files.erase q = base ++ rest := by
      rw [hcf, List.erase_append_right _ hqb, List.erase_cons_head]
    have hnd' : (sanitizePath q :: rest.map sanitizePath).Nodup := by
      rw [← List.map_cons]; exact hnd
    obtain ⟨hniq, hndrest⟩ := List.nodup_cons.mp hnd'
    have hne_san : ∀ q' ∈ rest, sanitizePath q' ≠ sanitizePath q := by
      intro q' hq' heq
      exact hniq (heq ▸ List.mem_map_of_mem sanitizePath hq')
    have hown' : ∀ q' ∈ rest, ∃ dq',
        lookupEntry { fs with locks := removeEntry fs.locks (sanitizePath q) }.locks
          (sanitizePath q') = some (some dq') ∧ dq'.worker_id = w := by
      intro q' hq'
      obtain ⟨dq', hl', hw'⟩ := hown q' (List.mem_cons_of_mem _ hq')
      exact ⟨dq', by
        show lookupEntry (removeEntry fs.locks (sanitizePath q)) (sanitizePath q') = _
        rw [lookupEntry_removeEntry_ne _ _ _ (hne_san q' hq')]
        exact hl', hw'⟩
    have hrec := ih { c with claimed_files := c.claimed_files.erase q }
      { fs with locks := removeEntry fs.locks (sanitizePath q) } base
      hw (by simpa using herase) (fun q' hq' => hnb q' (List.mem_cons_of_mem _ hq'))
      hndrest hown'
    have hfold : (q :: rest).foldl releaseFileStep (c, fs) =
        rest.foldl releaseFileStep
          ({ c with claimed_files := c.claimed_files.erase q },
           { fs with locks := removeEntry fs.locks (sanitizePath q) }) := by
      rw [List.foldl_cons, hstep]
    rw [hfold]
    obtain ⟨h1, h2, h3, h4, h5, h6, h7⟩ := hrec
    refine ⟨h1, h2, h3, h4, h5, ?_, ?_⟩
    · intro q' hq'
      rcases List.mem_cons.mp hq' with rfl | hq'
      · have hframe := h7 (sanitizePath q') (by simpa using hniq)
        rw [hframe]
        show lookupEntry (removeEntry fs.locks (sanitizePath q')) (sanitizePath q') = none
        exact lookupEntry_removeEntry_self _ _
      · exact h6 q' hq'
    · intro s hs
      have hs1 : s ≠ sanitizePath q := by
        intro h; exact hs (by simp [h])
      have hs2 : s ∉ rest.map sanitizePath := by
        intro h; exact hs (by simp [h])
      rw [h7 s hs2]
      show lookupEntry (removeEntry fs.locks (sanitizePath q)) s = lookupEntry fs.locks s
      exact lookupEntry_removeEntry_ne _ _ _ hs1

theorem claimFilesLoop_success (now : Int) (issue : String) (c0 : Coord) (fs0 : FS) :
    ∀ (rest done acc : List String) (c : Coord) (fs : FS),
      c = { c0 with claimed_files := c0.claimed_files ++ done } →
      fs.claims = fs0.claims →
      fs.workers = fs0.workers →
      (∀ q ∈ done, lookupEntry fs.locks (sanitizePath q) =
        some (some ⟨c0.worker_id, q, issue, now, c0.pid⟩)) →
      (∀ s, s ∉ done.map sanitizePath →
        lookupEntry fs.locks s = lookupEntry fs0.locks s) →
      (∀ q ∈ rest, lookupEntry fs0.locks (sanitizePath q) = none) →
      (∀ q ∈ rest, q ∉ c0.claimed_files) →
      (((done ++ rest).map sanitizePath).Nodup) →
      ∃ fsF, claimFilesLoop now issue c fs acc rest =
          (true, [], { c0 with claimed_files := c0.claimed_files ++ (done ++ rest) }, fsF) ∧
        fsF.claims = fs0.claims ∧ fsF.workers = fs0.workers ∧
        (∀ q ∈ done ++ rest, lookupEntry fsF.locks (sanitizePath q) =
          some (some ⟨c0.worker_id, q, issue, now, c0.pid⟩)) ∧
        (∀ s, s ∉ (done ++ rest).map sanitizePath →
          lookupEntry fsF.locks s = lookupEntry fs0.locks s) := by
  intro rest
  induction rest with
  | nil =>
    intro done acc c fs hc hcl hwk hdone hframe _ _ _
    subst hc
    refine ⟨fs, by simp [claimFilesLoop], hcl, hwk, by simpa using hdone, by simpa using hframe⟩
  | cons q rest ih =>
    intro done acc c fs hc hcl hwk hdone hframe habs hnm hnd
    subst hc
    have hndA : ((done.map sanitizePath) ++ ((q :: rest).map sanitizePath)).Nodup := by
      simpa [List.map_append] using hnd
    rw [List.nodup_append] at hndA
    obtain ⟨hnd_done, hnd_qr, hdisj⟩ := hndA
    have hsq_done : sanitizePath q ∉ done.map sanitizePath := by
      intro h
      exact hdisj h (by simp)
    have hq_done : q ∉ done := fun h => hsq_done (List.mem_map_of_mem sanitizePath h)
    have hq_cf : q ∉ c0.claimed_files ++ done := by
      intro h
      rcases List.mem_append.mp h with h | h
      · exact hnm q (List.mem_cons_self q rest) h
      · exact hq_done h
    have hlq : lookupEntry fs.locks (sanitizePath q) = none := by
      rw [hframe _ hsq_done]
      exact habs q (List.mem_cons_self q rest)
    have hacq := tryClaimFile_acquires
      { c0 with claimed_files := c0.claimed_files ++ done } fs now q issue hq_cf hlq
    have hstep : claimFilesLoop now issue
        { c0 with claimed_files := c0.claimed_files ++ done } fs acc (q :: rest) =
        claimFilesLoop now issue
          { c0 with claimed_files := (c0.claimed_files ++ done) ++ [q] }
          { fs with locks := (setEntry fs.locks (sanitizePath q)
            (some ⟨c0.worker_id, q, issue, now, c0.pid⟩)) } (acc ++ [q]) rest := by
      rw [claimFilesLoop, hacq]
      exact rfl
    have hrec := ih (done ++ [q]) (acc ++ [q])
      { c0 with claimed_files := (c0.claimed_files ++ done) ++ [q] }
      { fs with locks := (setEntry fs.locks (sanitizePath q)
        (some ⟨c0.worker_id, q, issue, now, c0.pid⟩)) }
      (by rw [List.append_assoc]) hcl hwk
      (?_ : ∀ q' ∈ done ++ [q], _)
      (?_ : ∀ s, _ → _)
      (fun q' hq' => habs q' (List.mem_cons_of_mem _ hq'))
      (fun q' hq' => hnm q' (List.mem_cons_of_mem _ hq'))
      (by rw [List.append_assoc, List.singleton_append]; exact hnd)
    · obtain ⟨fsF, heq, hclF, hwkF, hownF, hframeF⟩ := hrec
      refine ⟨fsF, ?_, hclF, hwkF, ?_, ?_⟩
      · rw [hstep, heq]
        congr 2
        simp [List.append_assoc]
      · intro q' hq'
        apply hownF
        rw [List.append_assoc, List.singleton_append]
        exact hq'
      · intro s hs
        apply hframeF
        rw [List.append_assoc, List.singleton_append]
        exact hs
    · intro q' hq'
      rcases List.mem_append.mp hq' with h | h
      · have hne : sanitizePath q' ≠ sanitizePath q := by
          intro he
          exact hsq_done (he ▸ List.mem_map_of_mem sanitizePath h)
        show lookupEntry (setEntry fs.locks (sanitizePath q) _) (sanitizePath q') = _
        rw [lookupEntry_setEntry_ne _ _ _ _ hne]
        exact hdone q' h
      · obtain rfl : q' = q := by simpa using h
        show lookupEntry (setEntry fs.locks (sanitizePath q') _) (sanitizePath q') = _
        exact lookupEntry_setEntry_self _ _ _
    · intro s hs
      have hs1 : s ≠ sanitizePath q := by
        intro h
        exact hs (by simp [h])
      have hs2 : s ∉ done.map sanitizePath := by
        intro h
        exact hs (by simp [h])
      show lookupEntry (setEntry fs.locks (sanitizePath q) _) s = _
      rw [lookupEntry_setEntry_ne _ _ _ _ hs1]
      exact hframe s hs2

theorem claimFilesLoop_fail (now : Int) (issue : String) (c0 : Coord) (fs0 : FS)
    (p : String) (post : List String) (d : LockRec) (crec : ClaimRec)
    (hp : lookupEntry fs0.locks (sanitizePath p) = some (some d))
    (hpo : d.worker_id ≠ c0.worker_id)
    (hpl : d.worker_id ∈ activeIds fs0 now)
    (hpnm : p ∉ c0.claimed_files)
    (hclaim : lookupEntry fs0.claims (sanitizeIssueId issue) = some (some crec))
    (hcw : crec.worker_id = c0.worker_id)
    (hcf0 : crec.files = [])
    (hcnt : c0.claimed_issues.count issue = 1) :
    ∀ (pre done : List String) (c : Coord) (fs : FS),
      c = { c0 with claimed_files := c0.claimed_files ++ done } →
      fs.claims = fs0.claims →
      fs.workers = fs0.workers →
      (∀ q ∈ done, lookupEntry fs.locks (sanitizePath q) =
        some (some ⟨c0.worker_id, q, issue, now, c0.pid⟩)) →
      (∀ s, s ∉ done.map sanitizePath →
        lookupEntry fs.locks s = lookupEntry fs0.locks s) →
      (∀ q ∈ pre, lookupEntry fs0.locks (sanitizePath q) = none) →
      (∀ q ∈ done ++ pre, q ∉ c0.claimed_files) →
      (((done ++ pre ++ p :: post).map sanitizePath).Nodup) →
      ∃ cF fsF, claimFilesLoop now issue c fs done (pre ++ p :: post) =
          (false, [p], cF, fsF) ∧
        issue ∉ cF.claimed_issues ∧
        cF.claimed_files = c0.claimed_files ∧
        isIssueClaimed fsF now issue = none ∧
        (∀ q ∈ done ++ pre, lookupEntry fsF.locks (sanitizePath q) = none) := by
  intro pre
  induction pre with
  | nil =>
    intro done c fs hc hcl hwk hdone hframe _ hnm hnd
    subst hc
    have hndA : ((done.map sanitizePath) ++ ((p :: post).map sanitizePath)).Nodup := by
      simpa [List.map_append] using hnd
    rw [List.nodup_append] at hndA
    obtain ⟨hnd_done, _, hdisj⟩ := hndA
    have hsp_done : sanitizePath p ∉ done.map sanitizePath := by
      intro h
      exact hdisj h (by simp)
    have hp_done : p ∉ done := fun h => hsp_done (List.mem_map_of_mem sanitizePath h)
    have hp_cf : p ∉ c0.claimed_files ++ done := by
      intro h
      rcases List.mem_append.mp h with h | h
      · exact hpnm h
      · exact hp_done h
    have hlp : lookupEntry fs.locks (sanitizePath p) = some (some d) := by
      rw [hframe _ hsp_done]
      exact hp
    have hliv : d.worker_id ∈ activeIds fs now := by
      rw [activeIds_eq_of_workers_eq fs fs0 now hwk]
      exact hpl
    have hfails := tryClaimFile_fails
      { c0 with claimed_files := c0.claimed_files ++ done } fs now p issue d
      hp_cf hlp hpo hliv
    obtain ⟨cR, fsR, hfold⟩ : ∃ cR fsR,
        done.foldl releaseFileStep
          ({ c0 with claimed_files := c0.claimed_files ++ done }, fs) = (cR, fsR) :=
      ⟨_, _, rfl⟩
    have hrb := rollbackFold c0.worker_id done
      { c0 with claimed_files := c0.claimed_files ++ done } fs c0.claimed_files
      rfl rfl (fun q hq => hnm q (by simpa using hq)) hnd_done
      (fun q hq => ⟨⟨c0.worker_id, q, issue, now, c0.pid⟩, hdone q hq, rfl⟩)
    rw [hfold] at hrb
    obtain ⟨h1, h2, h3, h4, h5, h6, h7⟩ := hrb
    have hlook : lookupEntry fsR.claims (sanitizeIssueId issue) = some (some crec) := by
      rw [h4, hcl]
      exact hclaim
    have hbeq : (crec.worker_id == cR.worker_id) = true := by
      rw [beq_iff_eq, hcw, h1]
    have hrel : releaseClaim cR fsR now issue =
        ({ cR with claimed_issues := cR.claimed_issues.erase issue },
         updateHeartbeat { cR with claimed_issues := cR.claimed_issues.erase issue }
           { fsR with claims := removeEntry fsR.claims (sanitizeIssueId issue) } now) := by
      simp only [releaseClaim, hlook, hbeq, hcf0, if_true, List.foldl_nil]
    have hloop : claimFilesLoop now issue
        { c0 with claimed_files := c0.claimed_files ++ done } fs done
        ([] ++ p :: post) =
        (false, [p], (releaseClaim cR fsR now issue).1, (releaseClaim cR fsR now issue).2) := by
      rw [List.nil_append, claimFilesLoop, hfails]
      show (false, [p],
        (releaseClaim (done.foldl releaseFileStep
          ({ c0 with claimed_files := c0.claimed_files ++ done }, fs)).1
          (done.foldl releaseFileStep
            ({ c0 with claimed_files := c0.claimed_files ++ done }, fs)).2 now issue).1,
        (releaseClaim (done.foldl releaseFileStep
          ({ c0 with claimed_files := c0.claimed_files ++ done }, fs)).1
          (done.foldl releaseFileStep
            ({ c0 with claimed_files := c0.claimed_files ++ done }, fs)).2 now issue).2) =
        (false, [p], (releaseClaim cR fsR now issue).1, (releaseClaim cR fsR now issue).2)
      rw [hfold]
    refine ⟨(releaseClaim cR fsR now issue).1, (releaseClaim cR fsR now issue).2,
      hloop, ?_, ?_, ?_, ?_⟩
    · rw [hrel]
      show issue ∉ cR.claimed_issues.erase issue
      rw [h2]
      show issue ∉ ({ c0 with claimed_files := c0.claimed_files ++ done } : Coord
        ).claimed_issues.erase issue
      have : (c0.claimed_issues.erase issue).count issue = 0 := by
        rw [List.count_erase_self, hcnt]
      exact List.count_eq_zero.mp this
    · rw [hrel]
      show cR.claimed_files = c0.claimed_files
      exact h3
    · rw [hrel]
      have hcl2 : (updateHeartbeat { cR with claimed_issues := cR.claimed_issues.erase issue }
          { fsR with claims := removeEntry fsR.claims (sanitizeIssueId issue) } now).claims =
          removeEntry fsR.claims (sanitizeIssueId issue) := rfl
      simp only [isIssueClaimed, hcl2, lookupEntry_removeEntry_self]
    · intro q hq
      rw [hrel]
      show lookupEntry fsR.locks (sanitizePath q) = none
      exact h6 q (by simpa using hq)
  | cons q pre ih =>
    intro done c fs hc hcl hwk hdone hframe habs hnm hnd
    subst hc
    have hndA : ((done.map sanitizePath) ++ (((q :: pre) ++ p :: post).map sanitizePath)).Nodup := by
      simpa [List.map_append] using hnd
    rw [List.nodup_append] at hndA
    obtain ⟨hnd_done, hnd_qr, hdisj⟩ := hndA
    have hsq_done : sanitizePath q ∉ done.map sanitizePath := by
      intro h
      exact hdisj h (by simp)
    have hq_done : q ∉ done := fun h => hsq_done (List.mem_map_of_mem sanitizePath h)
    have hq_cf : q ∉ c0.claimed_files ++ done := by
      intro h
      rcases List.mem_append.mp h with h | h
      · exact hnm q (by simp) h
      · exact hq_done h
    have hlq : lookupEntry fs.locks (sanitizePath q) = none := by
      rw [hframe _ hsq_done]
      exact habs q (List.mem_cons_self q pre)
    have hacq := tryClaimFile_acquires
      { c0 with claimed_files := c0.claimed_files ++ done } fs now q issue hq_cf hlq
    have hstep : claimFilesLoop now issue
        { c0 with claimed_files := c0.claimed_files ++ done } fs done
        ((q :: pre) ++ p :: post) =
        claimFilesLoop now issue
          { c0 with claimed_files := (c0.claimed_files ++ done) ++ [q] }
          { fs with locks := (setEntry fs.locks (sanitizePath q)
            (some ⟨c0.worker_id, q, issue, now, c0.pid⟩)) } (done ++ [q])
          (pre ++ p :: post) := by
      rw [List.cons_append, claimFilesLoop, hacq]
      exact rfl
    have hrec := ih (done ++ [q])
      { c0 with claimed_files := (c0.claimed_files ++ done) ++ [q] }
      { fs with locks := (setEntry fs.locks (sanitizePath q)
        (some ⟨c0.worker_id, q, issue, now, c0.pid⟩)) }
      (by rw [List.append_assoc]) hcl hwk
      (?_ : ∀ q' ∈ done ++ [q], _)
      (?_ : ∀ s, _ → _)
      (fun q' hq' => habs q' (List.mem_cons_of_mem _ hq'))
      (?_ : ∀ q' ∈ (done ++ [q]) ++ pre, _)
      (by rw [List.append_assoc done [q] pre, List.singleton_append]; exact hnd)
    · obtain ⟨cF, fsF, heq, hi1, hi2, hi3, hi4⟩ := hrec
      refine ⟨cF, fsF, ?_, hi1, hi2, hi3, ?_⟩
      · rw [hstep]
        exact heq
      · intro q' hq'
        apply hi4
        rw [List.append_assoc, List.singleton_append]
        simpa [List.mem_append, List.mem_cons, or_assoc] using hq'
    · intro q' hq'
      rcases List.mem_append.mp hq' with h | h
      · have hne : sanitizePath q' ≠ sanitizePath q := by
          intro he
          exact hsq_done (he ▸ List.mem_map_of_mem sanitizePath h)
        show lookupEntry (setEntry fs.locks (sanitizePath q) _) (sanitizePath q') = _
        rw [lookupEntry_setEntry_ne _ _ _ _ hne]
        exact hdone q' h
      · obtain rfl : q' = q := by simpa using h
        show lookupEntry (setEntry fs.locks (sanitizePath q') _) (sanitizePath q') = _
        exact lookupEntry_setEntry_self _ _ _
    · intro s hs
      have hs1 : s ≠ sanitizePath q := by
        intro h
        exact hs (by simp [h])
      have hs2 : s ∉ done.map sanitizePath := by
        intro h
        exact hs (by simp [h])
      show lookupEntry (setEntry fs.locks (sanitizePath q) _) s = _
      rw [lookupEntry_setEntry_ne _ _ _ _ hs1]
      exact hframe s hs2
    · intro q' hq'
      rw [List.append_assoc, List.singleton_append] at hq'
      apply hnm
      simpa [List.mem_append, List.mem_cons, or_assoc] using hq'

/-- C1: rollback atomicity of the combined issue+file claim. The state is any
state at the program point right after the pre-flight conflict check has
passed and `try_claim_issue` has succeeded (our claim file with an empty file
list is on disk and the issue is in our claim set once); the per-path phase
(`claimFilesPhase`, the suffix of `try_claim_issue_with_files`) then locks
`pre` successfully and fails on `p`, whose lock was taken by a live other
worker in the race window. The call returns `(False, [p])`, every file lock
acquired within the call is released, the issue claim is released
(`is_issue_claimed` yields None), and the in-memory claimed-issue and
claimed-file sets contain neither the issue nor any of the paths. -/
theorem rollback_atomicity (c0 : Coord) (fs0 : FS) (now : Int) (issue : String)
    (files pre post : List String) (p : String) (crec : ClaimRec) (d : LockRec)
    (hsplit : files = pre ++ p :: post)
    (hclaim : lookupEntry fs0.claims (sanitizeIssueId issue) = some (some crec))
    (hcw : crec.worker_id = c0.worker_id)
    (hcf0 : crec.files = [])
    (hcnt : c0.claimed_issues.count issue = 1)
    (hpre : ∀ q ∈ pre, lookupEntry fs0.locks (sanitizePath q) = none)
    (hnm : ∀ q ∈ files, q ∉ c0.claimed_files)
    (hnd : (files.map sanitizePath).Nodup)
    (hp : lookupEntry fs0.locks (sanitizePath p) = some (some d))
    (hpo : d.worker_id ≠ c0.worker_id)
    (hpl : d.worker_id ∈ activeIds fs0 now) :
    ∃ cF fsF, claimFilesPhase c0 fs0 now issue files = (false, [p], cF, fsF) ∧
      isIssueClaimed fsF now issue = none ∧
      issue ∉ cF.claimed_issues ∧
      cF.claimed_files = c0.claimed_files ∧
      (∀ q ∈ pre, lookupEntry fsF.locks (sanitizePath q) = none) := by
  subst hsplit
  have hploc : p ∈ pre ++ p :: post := List.mem_append.mpr (Or.inr (by simp))
  have hres := claimFilesLoop_fail now issue c0 fs0 p post d crec hp hpo hpl
    (hnm p hploc) hclaim hcw hcf0 hcnt pre [] c0 fs0
    (by simp) rfl rfl (by simp) (fun s _ => rfl) hpre
    (fun q hq => hnm q (List.mem_append.mpr (Or.inl (by simpa using hq))))
    (by simpa using hnd)
  obtain ⟨cF, fsF, heq, h1, h2, h3, h4⟩ := hres
  have hphase : claimFilesPhase c0 fs0 now issue (pre ++ p :: post) =
      (false, [p], cF, fsF) := by
    simp only [claimFilesPhase, heq]
    rfl
  exact ⟨cF, fsF, hphase, h3, h1, h2, fun q hq => h4 q (by simpa using hq)⟩

theorem rollback_atomicity_witness :
    (["A", "B"] : List String) = ["A"] ++ "B" :: [] ∧
    lookupEntry fs1w.claims (sanitizeIssueId "X") = some (some ⟨"w1", "X", 100, 1, []⟩) ∧
    (ClaimRec.worker_id ⟨"w1", "X", 100, 1, []⟩) = c1w.worker_id ∧
    (ClaimRec.files ⟨"w1", "X", 100, 1, []⟩) = [] ∧
    c1w.claimed_issues.count "X" = 1 ∧
    (∀ q ∈ (["A"] : List String), lookupEntry fs1w.locks (sanitizePath q) = none) ∧
    (∀ q ∈ (["A", "B"] : List String), q ∉ c1w.claimed_files) ∧
    ((["A", "B"] : List String).map sanitizePath).Nodup ∧
    lookupEntry fs1w.locks (sanitizePath "B") = some (some ⟨"w2", "B", "OTHER", 100, 2⟩) ∧
    (LockRec.worker_id ⟨"w2", "B", "OTHER", 100, 2⟩) ≠ c1w.worker_id ∧
    (LockRec.worker_id ⟨"w2", "B", "OTHER", 100, 2⟩) ∈ activeIds fs1w 100 ∧
    (∃ cF fsF, claimFilesPhase c1w fs1w 100 "X" ["A", "B"] = (false, ["B"], cF, fsF) ∧
      isIssueClaimed fsF 100 "X" = none ∧
      "X" ∉ cF.claimed_issues ∧
      cF.claimed_files = c1w.claimed_files ∧
      (∀ q ∈ (["A"] : List String), lookupEntry fsF.locks (sanitizePath q) = none)) :=
  ⟨by decide, by decide, by decide, by decide, by decide, by decide, by decide,
    by decide, by decide, by decide, by decide,
    rollback_atomicity c1w fs1w 100 "X" ["A", "B"] ["A"] [] "B"
      ⟨"w1", "X", 100, 1, []⟩ ⟨"w2", "B", "OTHER", 100, 2⟩
      (by decide) (by decide) (by decide) (by decide) (by decide) (by decide)
      (by decide) (by decide) (by decide) (by decide) (by decide)⟩

/-- C4: release cascade. From a clean state (unclaimed issue, unlocked
paths), `try_claim_issue_with_files` succeeds with no conflicts, and a
subsequent `release_claim` by the same worker deletes the claim file and
every file lock recorded in its files list: afterwards `is_issue_claimed`
is None and `check_file_conflicts` on the same paths returns the empty
list. -/
theorem release_cascade (c0 : Coord) (fs0 : FS) (now : Int) (issue : String)
    (files : List String)
    (hreg : c0.registered = true)
    (hnm : issue ∉ c0.claimed_issues)
    (hclaim0 : lookupEntry fs0.claims (sanitizeIssueId issue) = none)
    (habs : ∀ q ∈ files, lookupEntry fs0.locks (sanitizePath q) = none)
    (hfnm : ∀ q ∈ files, q ∉ c0.claimed_files)
    (hnd : (files.map sanitizePath).Nodup) :
    ∃ c1 fs1, tryClaimIssueWithFiles c0 fs0 now issue files = some (true, [], c1, fs1) ∧
      isIssueClaimed (releaseClaim c1 fs1 now issue).2 now issue = none ∧
      (checkFileConflicts (releaseClaim c1 fs1 now issue).1
        (releaseClaim c1 fs1 now issue).2 now files).1 = [] := by
  have hconf : (checkFileConflicts c0 fs0 now files).1 = [] :=
    checkFileConflicts_all_absent c0 fs0 now files habs
  have hwin := tryClaimIssue_wins c0 fs0 now issue hreg hnm hclaim0
  set cA : Coord := { c0 with claimed_issues := c0.claimed_issues ++ [issue] } with hcA
  set fsA : FS := updateHeartbeat cA
    { fs0 with claims := (setEntry fs0.claims (sanitizeIssueId issue)
      (some ⟨c0.worker_id, issue, now, c0.pid, []⟩)) } now with hfsA
  have hloop := claimFilesLoop_success now issue cA fsA files [] [] cA fsA
    (by simp) rfl rfl (by simp) (fun s _ => rfl)
    (fun q hq => habs q hq) (fun q hq => hfnm q hq) (by simpa using hnd)
  obtain ⟨fsB, heqloop, hclB, hwkB, hownB, _⟩ := hloop
  have hphase : claimFilesPhase cA fsA now issue files =
      (true, [], { cA with claimed_files := cA.claimed_files ++ ([] ++ files) },
        updateIssueClaimFiles fsB issue files) := by
    simp only [claimFilesPhase, heqloop, if_true]
  set cB : Coord := { cA with claimed_files := cA.claimed_files ++ ([] ++ files) } with hcB
  have hfull : tryClaimIssueWithFiles c0 fs0 now issue files =
      some (true, [], cB, updateIssueClaimFiles fsB issue files) := by
    simp only [tryClaimIssueWithFiles, hreg, hconf, hwin, hphase]
    try simp
  have hlookB : lookupEntry fsB.claims (sanitizeIssueId issue) =
      some (some ⟨c0.worker_id, issue, now, c0.pid, []⟩) := by
    rw [hclB]
    show lookupEntry (setEntry fs0.claims (sanitizeIssueId issue)
      (some ⟨c0.worker_id, issue, now, c0.pid, []⟩)) (sanitizeIssueId issue) = _
    exact lookupEntry_setEntry_self _ _ _
  have hupd : updateIssueClaimFiles fsB issue files =
      { fsB with claims := (setEntry fsB.claims (sanitizeIssueId issue)
        (some ⟨c0.worker_id, issue, now, c0.pid, files⟩)) } := by
    simp only [updateIssueClaimFiles, hlookB]
  set fsC : FS := { fsB with claims := (setEntry fsB.claims (sanitizeIssueId issue)
    (some ⟨c0.worker_id, issue, now, c0.pid, files⟩)) } with hfsC
  have hlookC : lookupEntry fsC.claims (sanitizeIssueId issue) =
      some (some ⟨c0.worker_id, issue, now, c0.pid, files⟩) := by
    rw [hfsC]
    exact lookupEntry_setEntry_self _ _ _
  obtain ⟨cR, fsR, hfold⟩ : ∃ cR fsR,
      files.foldl releaseFileStep (cB, fsC) = (cR, fsR) := ⟨_, _, rfl⟩
  have hrb := rollbackFold c0.worker_id files cB fsC c0.claimed_files
    rfl rfl hfnm hnd
    (fun q hq => ⟨⟨cA.worker_id, q, issue, now, cA.pid⟩, hownB q (by simpa using hq), rfl⟩)
  rw [hfold] at hrb
  obtain ⟨h1, h2, h3, h4, h5, h6, h7⟩ := hrb
  have hbeqC : ((ClaimRec.worker_id ⟨c0.worker_id, issue, now, c0.pid, files⟩) ==
      cB.worker_id) = true := by
    rw [beq_iff_eq]
  have hrel : releaseClaim cB fsC now issue =
      ({ cR with claimed_issues := cR.claimed_issues.erase issue },
       updateHeartbeat { cR with claimed_issues := cR.claimed_issues.erase issue }
         { fsR with claims := removeEntry fsR.claims (sanitizeIssueId issue) } now) := by
    simp only [releaseClaim, hlookC, hbeqC, if_true]
    rw [hfold]
  refine ⟨cB, updateIssueClaimFiles fsB issue files, hfull, ?_, ?_⟩
  · rw [hupd, hrel]
    have hclF : (updateHeartbeat { cR with claimed_issues := cR.claimed_issues.erase issue }
        { fsR with claims := removeEntry fsR.claims (sanitizeIssueId issue) } now).claims =
        removeEntry fsR.claims (sanitizeIssueId issue) := rfl
    simp only [isIssueClaimed, hclF, lookupEntry_removeEntry_self]
  · rw [hupd, hrel]
    apply checkFileConflicts_all_absent
    intro q hq
    show lookupEntry fsR.locks (sanitizePath q) = none
    exact h6 q hq

theorem release_cascade_witness :
    c4w.registered = true ∧ "ISS-1" ∉ c4w.claimed_issues ∧
    lookupEntry fs4w.claims (sanitizeIssueId "ISS-1") = none ∧
    (∀ q ∈ (["f1.py", "f2.py"] : List String),
      lookupEntry fs4w.locks (sanitizePath q) = none) ∧
    (∀ q ∈ (["f1.py", "f2.py"] : List String), q ∉ c4w.claimed_files) ∧
    ((["f1.py", "f2.py"] : List String).map sanitizePath).Nodup ∧
    (∃ c1 fs1, tryClaimIssueWithFiles c4w fs4w 100 "ISS-1" ["f1.py", "f2.py"] =
        some (true, [], c1, fs1) ∧
      isIssueClaimed (releaseClaim c1 fs1 100 "ISS-1").2 100 "ISS-1" = none ∧
      (checkFileConflicts (releaseClaim c1 fs1 100 "ISS-1").1
        (releaseClaim c1 fs1 100 "ISS-1").2 100 ["f1.py", "f2.py"]).1 = []) :=
  ⟨rfl, by decide, by decide, by decide, by decide, by decide,
    release_cascade c4w fs4w 100 "ISS-1" ["f1.py", "f2.py"]
      rfl (by decide) (by decide) (by decide) (by decide) (by decide)⟩

end Coordinator
